import Mathlib

/-!
Verification of the llama_cpp_router model-lifecycle scheduler.

This file gives a shallow embedding, in Lean 4, of the parts of the Rust
source that the specification's claims are about, and proves (or refutes)
each claim against that embedding.

Conventions of the embedding:
* Machine integers (`u32`, `u64`, `i32`, `i64`, `usize`) are embedded as
  `Nat` / `Int`.  Where the Rust code can overflow, the wrap-around of the
  release profile is made explicit (`wrap32`, `u64add`, `u64subWrap`);
  where the Rust code uses `saturating_mul` / `saturating_sub` the
  saturation is made explicit.
* Fallible Rust code (`io::Result`, `Result`, panics through `expect`)
  is embedded with `Except` / `Option`; a panic is `Option.none`.
* Async I/O against external collaborators (the Docker daemon, the
  `rocm-smi` tool, the file system) is embedded by passing the state of
  the collaborator (or the trace of its answers) explicitly.
* `f64` arithmetic in the memory estimator is embedded bit-faithfully:
  a non-negative double is the exact scaled integer `m · 2^e` (`Fl`),
  every cast, multiplication and division rounds its exact result to 53
  significant bits, to nearest, ties to even, exactly as IEEE-754
  binary64 does (the estimator's values stay far inside the normal
  range, so overflow and subnormals cannot arise), and `{:.1}`
  formatting rounds the exact binary value of the double to one decimal
  digit, ties to even, as Rust's float formatting does.
-/

/-! ## Machine-integer helpers -/

/-- Modulus of `u64` arithmetic. -/
def U64MOD : Nat := 2 ^ 64

/-- Largest `u64` value, Rust `u64::MAX`. -/
def U64MAX : Nat := U64MOD - 1

/-- Wrapping `u64` addition (Rust release-profile `+` on `u64`; a debug
build would panic on overflow instead). -/
def u64add (a b : Nat) : Nat := (a + b) % U64MOD

/-- Wrapping `u64` subtraction (Rust release-profile `-` on `u64`; a debug
build would panic on underflow instead).  Both arguments are expected to
be `< U64MOD`. -/
def u64subWrap (a b : Nat) : Nat := (U64MOD + a - b) % U64MOD

/-- Saturating `u64` subtraction, Rust `u64::saturating_sub`.  On `Nat`
truncated subtraction is already saturating. -/
def u64subSat (a b : Nat) : Nat := a - b

/-- Saturating `u64` multiplication, Rust `u64::saturating_mul`. -/
def u64mulSat (a b : Nat) : Nat := min (a * b) U64MAX

/-- Rust `u64::div_ceil`. -/
def u64divCeil (a m : Nat) : Nat := (a + m - 1) / m

/-- Rust `v as i32` on an `i64` value: wrap into the `i32` range. -/
def wrap32 (n : Int) : Int := (n + 2 ^ 31) % 2 ^ 32 - 2 ^ 31

/-! ## Decimal integer parsing (Rust `FromStr` for `u64` / `i32`)

Rust's integer `from_str` accepts an optional sign followed by a
non-empty run of ASCII digits and fails on any other character and on
overflow of the target type.  Rust checks overflow at every accumulation
step; since the accumulator grows monotonically as digits are appended,
a step overflows iff the value of the whole digit run exceeds the bound,
so the embedding accumulates in `Nat` and checks the bound once. -/

/-- Value of a run of ASCII digit characters, most significant first. -/
def digitsVal (cs : List Char) : Nat :=
  cs.foldl (fun a c => a * 10 + (c.toNat - 48)) 0

/-- ASCII digit test (Rust `\d` in the shard regex is Unicode-aware,
but the filenames involved are ASCII, where the two agree). -/
def isAsciiDigit (c : Char) : Bool :=
  48 ≤ c.toNat && c.toNat ≤ 57

/-- Is every character an ASCII digit? -/
def allDigits (cs : List Char) : Bool :=
  cs.all isAsciiDigit

/-- Parse a non-empty run of ASCII digits (no sign, no bound check). -/
def parseDigits (cs : List Char) : Option Nat :=
  if cs.isEmpty then none
  else if allDigits cs then some (digitsVal cs) else none

/-- Rust `i32::from_str`, on the character list of the input string. -/
def parseI32 (cs : List Char) : Option Int :=
  match cs with
  | [] => none
  | c :: rest =>
    if c = '+' then
      (parseDigits rest).bind fun v =>
        if v ≤ 2 ^ 31 - 1 then some (v : Int) else none
    else if c = '-' then
      (parseDigits rest).bind fun v =>
        if v ≤ 2 ^ 31 then some (-(v : Int)) else none
    else
      (parseDigits cs).bind fun v =>
        if v ≤ 2 ^ 31 - 1 then some (v : Int) else none

/-- Rust `u64::from_str`, on the character list of the input string. -/
def parseU64 (cs : List Char) : Option Nat :=
  match cs with
  | [] => none
  | c :: rest =>
    if c = '+' then
      (parseDigits rest).bind fun v => if v ≤ U64MAX then some v else none
    else
      (parseDigits cs).bind fun v => if v ≤ U64MAX then some v else none

/-- Rust `i32::to_string`, as a character list: a minus sign for negative
values, then the decimal digits.  For non-negative values this is the
character list of Lean's own `Nat.repr`. -/
def i32ToChars (i : Int) : List Char :=
  if i < 0 then '-' :: Nat.toDigits 10 i.natAbs else Nat.toDigits 10 i.toNat

/-! ## Context size (src/config/context_size.rs)

`ContextSize` wraps an `i32`.  Serialization emits either a string or an
integer into the serde data model, which the embedding captures as
`SerValue`; deserialization dispatches strings to `visit_str` and
integers to `visit_i64` (serde's default `visit_i32`/`visit_u64` forward
to the same checks for the values a round-trip can produce). -/

/-- A value in the serde data model: what `ContextSize::serialize` can
emit and what `deserialize_any` can dispatch on. -/
inductive SerValue where
  | str (s : String)
  | int (n : Int)
deriving DecidableEq

/-- Embeds `ContextSizeVisitor::visit_str`.  Rust slices off the final byte for
the `k`-suffixed form; since `'k'`/`'K'` are one-byte characters this is
`List.dropLast` on the character list.  The multiplication `n * 1024` is
an `i32` multiplication, hence `wrap32`. -/
def contextVisitStr (cs : List Char) : Except String Int :=
  match cs.getLast? with
  | none => .error "context string cannot be empty"
  | some last =>
    if last = 'k' ∨ last = 'K' then
      match parseI32 cs.dropLast with
      | some n => .ok (wrap32 (n * 1024))
      | none => .error "invalid number in context string with 'k'"
    else
      match parseI32 cs with
      | some n => .ok n
      | none => .error "invalid context string"

/-- Embeds `ContextSizeVisitor::visit_i64`: only the upper bound is checked;
the cast `v as i32` wraps. -/
def contextVisitI64 (v : Int) : Except String Int :=
  if v > 2 ^ 31 - 1 then .error "integer out of range for i32"
  else .ok (wrap32 v)

/-- Embeds `ContextSize::deserialize` via `deserialize_any`. -/
def contextSizeDeserialize (v : SerValue) : Except String Int :=
  match v with
  | .str s => contextVisitStr s.data
  | .int n => contextVisitI64 n

/-- Embeds `ContextSize::serialize`: a multiple of 1024 is emitted as the string
`<n/1024>k`, any other value as the raw integer.  Rust `%` and `/` on
`i32` truncate towards zero (`Int.tmod` / `Int.tdiv`). -/
def contextSizeSerialize (n : Int) : SerValue :=
  if n.tmod 1024 = 0 then
    .str (String.mk (i32ToChars (n.tdiv 1024) ++ ['k']))
  else
    .int n

/-! ### Decimal print/parse round-trip -/

/-- One digit character: value and digit-hood of `Nat.digitChar`. -/
theorem digitChar_val {m : Nat} (hm : m < 10) :
    48 ≤ (Nat.digitChar m).toNat ∧ (Nat.digitChar m).toNat ≤ 57 ∧
      (Nat.digitChar m).toNat - 48 = m := by
  have h : m = 0 ∨ m = 1 ∨ m = 2 ∨ m = 3 ∨ m = 4 ∨ m = 5 ∨ m = 6 ∨ m = 7 ∨
      m = 8 ∨ m = 9 := by omega
  rcases h with rfl | rfl | rfl | rfl | rfl | rfl | rfl | rfl | rfl | rfl <;> decide

/-- Appending one digit to a run multiplies its value by ten and adds the
digit. -/
theorem digitsVal_append_singleton (cs : List Char) (c : Char) :
    digitsVal (cs ++ [c]) = digitsVal cs * 10 + (c.toNat - 48) := by
  simp [digitsVal, List.foldl_append]

/-- Characterization of `Nat.toDigitsCore` at base 10 with sufficient
fuel: it prepends a non-empty run of digit characters whose value is the
input. -/
theorem toDigitsCore_spec :
    ∀ (fuel n : Nat) (acc : List Char), n < fuel →
      ∃ ds : List Char, Nat.toDigitsCore 10 fuel n acc = ds ++ acc ∧
        ds ≠ [] ∧ allDigits ds = true ∧ digitsVal ds = n := by
  intro fuel
  induction fuel with
  | zero => intro n acc h; omega
  | succ fuel ih =>
    intro n acc hn
    rw [Nat.toDigitsCore]
    by_cases h10 : n / 10 = 0
    · have hlt : n < 10 := (Nat.div_eq_zero_iff (by omega)).mp h10
      rw [if_pos h10]
      obtain ⟨hd1, hd2, hd3⟩ := digitChar_val (m := n % 10) (Nat.mod_lt n (by omega))
      refine ⟨[Nat.digitChar (n % 10)], rfl, by simp, ?_, ?_⟩
      · simp [allDigits, isAsciiDigit, List.all_cons]
        omega
      · simp [digitsVal]
        omega
    · have hpos : 0 < n := by
        rcases Nat.eq_zero_or_pos n with h | h
        · subst h; simp at h10
        · exact h
      have hdiv : n / 10 < fuel := by
        have h1 : n / 10 < n := Nat.div_lt_self hpos (by omega)
        omega
      obtain ⟨ds, hds, hne, hdig, hval⟩ := ih (n / 10) (Nat.digitChar (n % 10) :: acc) hdiv
      rw [if_neg h10, hds]
      obtain ⟨hd1, hd2, hd3⟩ := digitChar_val (m := n % 10) (Nat.mod_lt n (by omega))
      refine ⟨ds ++ [Nat.digitChar (n % 10)], by simp, by simp, ?_, ?_⟩
      · simp only [allDigits, isAsciiDigit, List.all_append, List.all_cons,
          List.all_nil] at hdig ⊢
        simp [hdig]
        omega
      · rw [digitsVal_append_singleton, hval, hd3]
        omega

/-- Parsing the decimal rendering of a natural number (Lean's `Nat.repr`
digit list, which models Rust's `to_string`) gives back the number. -/
theorem parseDigits_toDigits (n : Nat) :
    parseDigits (Nat.toDigits 10 n) = some n := by
  obtain ⟨ds, hds, hne, hdig, hval⟩ :=
    toDigitsCore_spec (n + 1) n [] (Nat.lt_succ_self n)
  unfold Nat.toDigits
  rw [hds, List.append_nil] at *
  rw [parseDigits, if_neg (by simpa using hne), if_pos hdig, hval]

/-- A run of digit characters never starts with a sign, so `i32` parsing
of a decimal rendering reduces to the digit run itself. -/
theorem parseI32_toDigits (n : Nat) (hbound : n ≤ 2 ^ 31 - 1) :
    parseI32 (Nat.toDigits 10 n) = some (n : Int) := by
  have hp := parseDigits_toDigits n
  rcases hds : Nat.toDigits 10 n with _ | ⟨c, rest⟩
  · rw [hds] at hp; simp [parseDigits] at hp
  · rw [hds] at hp
    have hdig : allDigits (c :: rest) = true := by
      by_contra h
      simp only [parseDigits, List.isEmpty_cons, Bool.false_eq_true, if_false] at hp
      rw [if_neg h] at hp
      exact Option.noConfusion hp
    have hc : 48 ≤ c.toNat ∧ c.toNat ≤ 57 := by
      simp only [allDigits, isAsciiDigit, List.all_cons, Bool.and_eq_true,
        decide_eq_true_eq] at hdig
      exact ⟨hdig.1.1, hdig.1.2⟩
    have hplus : c ≠ '+' := by
      intro h; subst h; exact absurd hc (by decide)
    have hminus : c ≠ '-' := by
      intro h; subst h; exact absurd hc (by decide)
    rw [parseI32, if_neg (by simpa using hplus), if_neg (by simpa using hminus), hp]
    simp
    omega

/-! ### The context-size round-trip (claim C7) -/

theorem string_mk_data (l : List Char) : (String.mk l).data = l := rfl

/-- Wrapping into `i32` is the identity on the `i32` range. -/
theorem wrap32_eq_of_range (n : Int) (h0 : -(2 ^ 31) ≤ n) (h1 : n ≤ 2 ^ 31 - 1) :
    wrap32 n = n := by
  unfold wrap32
  omega

/-- C7: for every integer 0 ≤ n ≤ i32::MAX, parsing the serialization of
`ContextSize(n)` yields `ContextSize(n)` again; "32k" parses to 32768 and
32768 serializes back to the string "32k"; "1500" parses to 1500 and 1500
serializes back to the raw integer 1500. -/
theorem c7_context_round_trip :
    (∀ n : Int, 0 ≤ n → n ≤ 2 ^ 31 - 1 →
      contextSizeDeserialize (contextSizeSerialize n) = .ok n) ∧
    contextSizeDeserialize (.str "32k") = .ok 32768 ∧
    contextSizeSerialize 32768 = .str "32k" ∧
    contextSizeDeserialize (.str "1500") = .ok 1500 ∧
    contextSizeSerialize 1500 = .int 1500 := by
  refine ⟨?_, rfl, rfl, rfl, rfl⟩
  intro n h0 hb
  unfold contextSizeSerialize
  by_cases hm : n.tmod 1024 = 0
  · rw [if_pos hm]
    have htd : n.tmod 1024 + 1024 * n.tdiv 1024 = n := Int.tmod_add_tdiv n 1024
    have hk0 : 0 ≤ n.tdiv 1024 := by omega
    have hkb : n.tdiv 1024 ≤ 2 ^ 31 - 1 := by omega
    have hneg : ¬ n.tdiv 1024 < 0 := by omega
    show contextVisitStr (String.mk (i32ToChars (n.tdiv 1024) ++ ['k'])).data = _
    rw [string_mk_data]
    unfold i32ToChars
    rw [if_neg hneg]
    unfold contextVisitStr
    rw [List.getLast?_concat, List.dropLast_concat]
    have hbn : (n.tdiv 1024).toNat ≤ 2 ^ 31 - 1 := by omega
    rw [parseI32_toDigits _ hbn]
    simp only [Int.toNat_of_nonneg hk0]
    rw [if_pos (Or.inl trivial)]
    have : n.tdiv 1024 * 1024 = n := by omega
    rw [this, wrap32_eq_of_range n (by omega) hb]
  · rw [if_neg hm]
    show contextVisitI64 n = _
    unfold contextVisitI64
    rw [if_neg (by omega)]
    rw [wrap32_eq_of_range n (by omega) hb]

/-- Witness for C7 at the concrete input 32768. -/
theorem c7_context_round_trip_witness :
    contextSizeDeserialize (contextSizeSerialize 32768) = .ok 32768 :=
  c7_context_round_trip.1 32768 (by decide) (by decide)

/-! ## GGUF weight-file reading (src/services/vram_estimator.rs)

The reader functions of the source consume a `BufReader<File>`; the
embedding passes the remaining bytes of the file explicitly as a
`List Nat` (each entry one byte).  `io::Error` values are collapsed to
an error kind, since the code only ever propagates them. -/

/-- Collapsed `io::Error`: end of file during `read_exact`, an
`InvalidData` format error, or a failed `File::open`. -/
inductive IoErr where
  | eof
  | invalidData
  | notFound
deriving DecidableEq

/-- Little-endian value of a byte list (least significant byte first). -/
def leVal (bs : List Nat) : Nat :=
  bs.foldr (fun b acc => b + 256 * acc) 0

/-- Rust `read_exact` into an `n`-byte buffer: fails if fewer than `n`
bytes remain. -/
def readBytes (n : Nat) (s : List Nat) : Except IoErr (List Nat × List Nat) :=
  if n ≤ s.length then .ok (s.take n, s.drop n) else .error .eof

/-- Embeds `read_u8` (vram_estimator.rs). -/
def readU8 (s : List Nat) : Except IoErr (Nat × List Nat) :=
  (readBytes 1 s).map fun (bs, rest) => (leVal bs, rest)

/-- Embeds `read_u16`, little-endian (vram_estimator.rs). -/
def readU16 (s : List Nat) : Except IoErr (Nat × List Nat) :=
  (readBytes 2 s).map fun (bs, rest) => (leVal bs, rest)

/-- Embeds `read_u32`, little-endian (vram_estimator.rs). -/
def readU32 (s : List Nat) : Except IoErr (Nat × List Nat) :=
  (readBytes 4 s).map fun (bs, rest) => (leVal bs, rest)

/-- Embeds `read_u64`, little-endian (vram_estimator.rs). -/
def readU64 (s : List Nat) : Except IoErr (Nat × List Nat) :=
  (readBytes 8 s).map fun (bs, rest) => (leVal bs, rest)

/-- Embeds `read_string`: u64 length, a 1 MiB cap, then the bytes decoded as
UTF-8.  The embedding decodes the ASCII subset only and rejects bytes
above 127, where Rust would accept any valid UTF-8; every metadata key
the estimator matches on is ASCII, so the two agree on the executions
the claims quantify over. -/
def readString (s : List Nat) : Except IoErr (String × List Nat) := do
  let (len, s) ← readU64 s
  if len > 1024 * 1024 then .error .invalidData
  else
    let (bs, s) ← readBytes len s
    if bs.all (· < 128) then .ok (String.mk (bs.map Char.ofNat), s)
    else .error .invalidData

/-- Rust `seek(SeekFrom::Current(n))`: succeeds even past the end of the
stream (subsequent reads then fail), so it is a plain `drop`. -/
def seekBy (n : Nat) (s : List Nat) : List Nat := s.drop n

mutual

/-- Embeds `skip_value`: skip one GGUF value of the given type.  The `fuel`
argument makes the nested-array recursion structural; every in-bounds
skip consumes at least one byte, so fuel `s.length + 1` is enough for
every execution in which the Rust code goes on to succeed (when fuel
runs out the embedding answers `invalidData`, where Rust would keep
seeking past the end of the file and fail at the next read). -/
def skipValue : Nat → Nat → List Nat → Except IoErr (List Nat)
  | 0, _, _ => .error .invalidData
  | fuel + 1, typ, s =>
    if typ = 0 ∨ typ = 1 then .ok (seekBy 1 s)
    else if typ = 2 ∨ typ = 3 then .ok (seekBy 2 s)
    else if 4 ≤ typ ∧ typ ≤ 6 then .ok (seekBy 4 s)
    else if typ = 7 then .ok (seekBy 1 s)
    else if typ = 8 then do
      let (len, s) ← readU64 s
      if len > 10000000 then .error .invalidData else .ok (seekBy len s)
    else if typ = 9 then do
      let (elemType, s) ← readU32 s
      let (count, s) ← readU64 s
      skipElems fuel elemType count s
    else if 10 ≤ typ ∧ typ ≤ 12 then .ok (seekBy 8 s)
    else .error .invalidData
termination_by fuel _ _ => (fuel, 0)

/-- The element loop of `skip_value` for arrays. -/
def skipElems : Nat → Nat → Nat → List Nat → Except IoErr (List Nat)
  | _, _, 0, s => .ok s
  | fuel, elemType, count + 1, s => do
    let s ← skipValue fuel elemType s
    skipElems fuel elemType count s
termination_by fuel _ count _ => (fuel, count + 1)

end

/-- Rust `str::ends_with`, on character lists. -/
def listEndsWith (a b : List Char) : Bool :=
  decide (b.length ≤ a.length) && (a.drop (a.length - b.length) == b)

/-- Rust `str::trim` (ASCII whitespace; the strings the reader parses
as numbers contain no Unicode whitespace). -/
def trimChars (cs : List Char) : List Char :=
  ((cs.dropWhile Char.isWhitespace).reverse.dropWhile Char.isWhitespace).reverse

/-- Embeds `read_u32_of_type`: read a numeric metadata value into a `u32`. -/
def readU32OfType (typ : Nat) (s : List Nat) : Except IoErr (Nat × List Nat) :=
  if typ = 0 ∨ typ = 1 then readU8 s
  else if typ = 2 ∨ typ = 3 then readU16 s
  else if typ = 4 ∨ typ = 5 ∨ typ = 6 then readU32 s
  else if typ = 8 then .error .invalidData
  else if typ = 10 ∨ typ = 11 then do
    let (v, s) ← readU64 s
    if v > 2 ^ 32 - 1 then .error .invalidData else .ok (v, s)
  else .error .invalidData

/-- Embeds `read_u64_of_type`: read a numeric metadata value into a `u64`; a
string value is parsed as a decimal integer. -/
def readU64OfType (typ : Nat) (s : List Nat) : Except IoErr (Nat × List Nat) :=
  if typ = 4 ∨ typ = 5 then readU32 s
  else if typ = 10 ∨ typ = 11 then readU64 s
  else if typ = 8 then do
    let (str, s) ← readString s
    match parseU64 (trimChars str.data) with
    | some v => .ok (v, s)
    | none => .error .invalidData
  else .error .invalidData

/-- The struct `ModelParams` of vram_estimator.rs (renamed here because
the config module declares a different `ModelParams`). -/
structure EstParams where
  attention_heads : Option Nat := none
  kv_heads : Option Nat := none
  hidden_layers : Option Nat := none
  hidden_size : Option Nat := none
  split_count : Option Nat := none
deriving DecidableEq

/-- Does the key end with one of the five suffixes `read_model_params`
extracts? -/
def keyNeeded (key : String) : Bool :=
  listEndsWith key.data ".attention.head_count".data ||
  listEndsWith key.data ".attention.head_count_kv".data ||
  listEndsWith key.data ".block_count".data ||
  listEndsWith key.data ".embedding_length".data ||
  listEndsWith key.data "split.count".data

/-- One iteration of the metadata loop of `read_model_params`: read a
key and its type, extract the value when the key is one of the five
suffix matches (the guards are tried in source order), or skip it. -/
def readMetaEntry (params : EstParams) (s : List Nat) :
    Except IoErr (EstParams × List Nat) := do
  let (key, s) ← readString s
  let (typ, s) ← readU32 s
  if keyNeeded key then
    if listEndsWith key.data ".attention.head_count".data then
      let (v, s) ← readU32OfType typ s
      .ok ({ params with attention_heads := some v }, s)
    else if listEndsWith key.data ".attention.head_count_kv".data then
      let (v, s) ← readU32OfType typ s
      .ok ({ params with kv_heads := some v }, s)
    else if listEndsWith key.data ".block_count".data then
      let (v, s) ← readU32OfType typ s
      .ok ({ params with hidden_layers := some v }, s)
    else if listEndsWith key.data ".embedding_length".data then
      let (v, s) ← readU64OfType typ s
      .ok ({ params with hidden_size := some v }, s)
    else if listEndsWith key.data "split.count".data then
      let (v, s) ← readU32OfType typ s
      .ok ({ params with split_count := some v }, s)
    else do
      let s ← skipValue (s.length + 1) typ s
      .ok (params, s)
  else do
    let s ← skipValue (s.length + 1) typ s
    .ok (params, s)

/-- The metadata loop of `read_model_params`, with the early exit once
head count, block count and embedding length are all known. -/
def readMetaLoop : Nat → EstParams → List Nat → Except IoErr (EstParams × List Nat)
  | 0, params, s => .ok (params, s)
  | cnt + 1, params, s => do
    let (params, s) ← readMetaEntry params s
    if params.attention_heads.isSome ∧ params.hidden_layers.isSome ∧
        params.hidden_size.isSome then
      .ok (params, s)
    else
      readMetaLoop cnt params s

/-- Embeds `read_model_params`: magic, version, tensor count, then the metadata
loop; `kv_heads` defaults to `attention_heads`; the three required
fields must be present. -/
def read_model_params (s : List Nat) : Except IoErr (EstParams × List Nat) := do
  let (magic, s) ← readU32 s
  if magic ≠ 0x46554747 then .error .invalidData
  else do
    let (version, s) ← readU32 s
    if version > 3 then .error .invalidData
    else do
      let s ← (if version ≥ 1 then (readU64 s).map Prod.snd else pure s)
      let (metaCnt, s) ← readU64 s
      let (params, s) ← readMetaLoop metaCnt {} s
      let params :=
        if params.kv_heads.isNone then { params with kv_heads := params.attention_heads }
        else params
      if params.attention_heads.isNone ∨ params.hidden_layers.isNone ∨
          params.hidden_size.isNone then
        .error .invalidData
      else
        .ok (params, s)

/-! ## Shard-count inference and memory formatting -/

/-- Does the character list, taken from this position to its end, match
the pattern `-(\d+)-of-(\d+)$`?  If so, the value of the second capture.
The first `\d+` is greedy, but the following literal is a non-digit, so
greediness without backtracking coincides with the regex.  Rust's `\d`
is Unicode-aware; the embedding uses ASCII digits, which agree on all
ASCII filenames. -/
def shardSuffixAt (cs : List Char) : Option Nat :=
  match cs with
  | c0 :: rest =>
    if c0 = '-' then
      let ds1 := rest.takeWhile isAsciiDigit
      if ds1.isEmpty then none
      else
        let rest2 := rest.drop ds1.length
        if rest2.take 4 = ['-', 'o', 'f', '-'] then
          let ds2 := rest2.drop 4
          if ds2.isEmpty then none
          else if allDigits ds2 then some (digitsVal ds2) else none
        else none
    else none
  | [] => none

/-- Leftmost match of `-(\d+)-of-(\d+)$` in a character list. -/
def shardScan : List Char → Option Nat
  | [] => none
  | c :: rest =>
    match shardSuffixAt (c :: rest) with
    | some v => some v
    | none => shardScan rest

/-- Rust `Path::file_name` for the ordinary paths the router builds:
the characters after the last `/`.  (Rust also strips trailing slashes
and rejects `..`; the paths the estimator receives have neither.) -/
def pathFileName (p : String) : Option (List Char) :=
  let name := ((p.data.reverse.takeWhile (· ≠ '/')).reverse)
  if name.isEmpty then none else some name

/-- Embeds `infer_split_count_from_path`: the trailing capture of the pattern,
parsed as `u32` with overflow collapsing to 0 (`unwrap_or(0)`), kept
only when it exceeds 1.  The Rust function returns `io::Result` but
never an error, so the embedding drops the wrapper. -/
def infer_split_count_from_path (p : String) : Option Nat :=
  match pathFileName p with
  | none => none
  | some name =>
    match shardScan name with
    | some total0 =>
      let total := if total0 ≤ 2 ^ 32 - 1 then total0 else 0
      if total > 1 then some total else none
    | none => none

/-! ### Exact model of non-negative IEEE-754 binary64 arithmetic

The estimator computes with `f64`.  Every value it produces is
non-negative and stays far inside the normal double range, so a double
is modelled exactly as a scaled integer `m · 2^e`, and each operation
rounds its exact result to 53 significant bits, to nearest, ties to
even — precisely the IEEE-754 behaviour.  All operations are plain
`Nat` / `Int` arithmetic, so the kernel can evaluate them. -/

/-- Number of binary digits of `n`, fuel-structural so the kernel can
reduce it (`300` bits of fuel covers every quantity that arises: all
mantissas are at most 53 bits and all scaled numerators fit far below
`2^300`). -/
def bitlenAux : Nat → Nat → Nat
  | 0, _ => 0
  | fuel + 1, n => if n = 0 then 0 else bitlenAux fuel (n / 2) + 1

/-- Number of binary digits of `n`. -/
def bitlen (n : Nat) : Nat := bitlenAux 300 n

/-- A non-negative IEEE-754 binary64 value, exactly: the dyadic rational
`m · 2^e`.  Produced values always have `m = 0` or `m < 2^53`. -/
structure Fl where
  m : Nat
  e : Int
deriving DecidableEq

/-- Round the exact value `m · 2^e` (plus a sticky tail: a discarded
value strictly between `0` and one unit of `2^e` when `sticky` is true)
to 53 significant bits, to nearest, ties to even.  Callers that set
`sticky` always supply at least 56 significant bits in `m`, so the
`b ≤ 53` branch never sees a sticky tail. -/
def flRoundSticky (m : Nat) (e : Int) (sticky : Bool) : Fl :=
  if m = 0 then ⟨0, 0⟩
  else
    let b := bitlen m
    if b ≤ 53 then ⟨m, e⟩
    else
      let shift := b - 53
      let d := 2 ^ shift
      let q := m / d
      let r := m % d
      let half := d / 2
      let up : Bool :=
        if half < r then true
        else if r < half then false
        else sticky || decide (q % 2 = 1)
      let q2 := if up then q + 1 else q
      if q2 = 2 ^ 53 then ⟨2 ^ 52, e + shift + 1⟩ else ⟨q2, e + shift⟩

/-- Round the exact value `m · 2^e` to a double. -/
def flRound (m : Nat) (e : Int) : Fl := flRoundSticky m e false

/-- Rust `n as f64` on an unsigned integer: round to the nearest
double. -/
def flOfNat (n : Nat) : Fl := flRound n 0

/-- IEEE-754 double multiplication: the exact product, rounded. -/
def flMul (a b : Fl) : Fl := flRound (a.m * b.m) (a.e + b.e)

/-- IEEE-754 double division by the positive integer `d` (the estimator
divides only by the exactly representable constants `1_000_000.0` and
`1000.0`): the numerator is pre-scaled so the integer quotient carries
at least 56 significant bits, which makes the round and sticky
information exact. -/
def flDivNat (a : Fl) (d : Nat) : Fl :=
  if a.m = 0 then ⟨0, 0⟩
  else
    let s := bitlen d + 56 - bitlen a.m
    let n := a.m * 2 ^ s
    let q := n / d
    let r := n % d
    flRoundSticky q (a.e - s) (r ≠ 0)

/-- Mathematical floor of a non-negative double.  `f64::floor` is exact
(an f64 of magnitude at least `2^52` is already an integer, and below
that every non-negative integer is representable), so the floor of the
modelled value is the value of the floored double. -/
def Fl.floorNat (x : Fl) : Nat :=
  if 0 ≤ x.e then x.m * 2 ^ x.e.toNat else x.m / 2 ^ (-x.e).toNat

/-- The exact rational value of a double, for relating the modelled
computation to exact arithmetic in the claims. -/
def Fl.toRat (x : Fl) : ℚ := (x.m : ℚ) * (2 : ℚ) ^ x.e

/-- Rust `format!("{:.1}", v)` rounds the exact binary value of the
double `v` to one decimal digit, ties to even; the result here is the
count of tenths.  (`v` is non-negative.) -/
def roundTenths (v : Fl) : Nat :=
  if 0 ≤ v.e then 10 * v.m * 2 ^ v.e.toNat
  else
    let d := 2 ^ (-v.e).toNat
    let n := 10 * v.m
    let q := n / d
    let r := n % d
    if d < 2 * r then q + 1
    else if 2 * r < d then q
    else if q % 2 = 0 then q else q + 1

/-- Embeds `fmt_memory`: at least 1000 MB renders as gigabytes with one
decimal digit, below that as whole megabytes.  Rust formats
`mb as f64 / 1000.0` with `{:.1}`: the cast and the division each round
to the nearest double and the formatting rounds the exact value of that
double to one decimal digit, ties to even; the embedding follows each
step. -/
def fmt_memory (mb : Nat) : String :=
  if mb ≥ 1000 then
    let tenths := roundTenths (flDivNat (flOfNat mb) 1000)
    toString (tenths / 10) ++ "." ++ toString (tenths % 10) ++ " GB"
  else
    toString mb ++ " MB"

/-! ## Memory estimation (src/services/vram_estimator.rs) -/

/-- Supported KV-cache quantizations. -/
inductive KvQuant where
  | FP32
  | FP16
  | Int8
  | Q6
  | Q5
  | Q4
deriving DecidableEq

/-- Embeds `KvQuant::bytes_per_value`.  The Rust values are `f64` literals
(8.0, 4.0, 2.0, 1.5, 1.25, 1.0), all exactly representable; the
embedding uses the equal doubles (`1.5 = 3 · 2⁻¹`, `1.25 = 5 · 2⁻²`). -/
def KvQuant.bytes_per_value : KvQuant → Fl
  | .FP32 => ⟨8, 0⟩
  | .FP16 => ⟨4, 0⟩
  | .Int8 => ⟨2, 0⟩
  | .Q6 => ⟨3, -1⟩
  | .Q5 => ⟨5, -2⟩
  | .Q4 => ⟨1, 0⟩

/-- Embeds `KvQuant::label`.  The hyphen inside the Q6/Q5/Q4 labels is
U+2011 NON-BREAKING HYPHEN in the source, not ASCII `-`. -/
def KvQuant.label : KvQuant → String
  | .FP32 => "FP32"
  | .FP16 => "FP16/BF16"
  | .Int8 => "INT8"
  | .Q6 => "Q6 (6‑bit)"
  | .Q5 => "Q5 (5‑bit)"
  | .Q4 => "Q4 (4‑bit)"

/-- Embeds `MemoryEstimation` (vram_estimator.rs). -/
structure MemoryEstimation where
  model_size_mb : Nat
  kv_cache_mb : Nat
  total_required_mb : Nat
  display : String
  kv_quant : KvQuant
deriving DecidableEq

/-- One file on disk, as the estimator sees it: the header bytes the
GGUF reader consumes, and the full on-disk length that
`metadata().len()` reports.  (The reader stops at its early exit, so
the body of a weight file past the header is never read; keeping the
length separate lets the embedding talk about multi-gigabyte files
without materializing them.) -/
structure FileData where
  header : List Nat
  size : Nat

/-- The file system, as a map from path to file; `none` makes
`File::open` fail. -/
def FS : Type := String → Option FileData

/-- Resolution of `total_bytes` in `estimate_memory`: the
filename-inferred shard count is consulted only when the metadata split
count exceeds 1; `saturating_mul` is explicit. -/
def estTotalBytes (split_count : Option Nat) (path : String) (file_size : Nat) : Nat :=
  match split_count with
  | some splitCnt =>
    if splitCnt > 1 then
      u64mulSat file_size ((infer_split_count_from_path path).getD splitCnt)
    else file_size
  | none => file_size

/-- The KV-cache megabyte computation of `estimate_memory`, following the
`f64` pipeline operation by operation: `bytes_per_value * hidden_size
as f64 * hidden_layers as f64 * context_tokens as f64` associates to the
left with every cast and multiplication rounding to the nearest double,
the quotient by `1_000_000.0` rounds to the nearest double, `.floor()`
is exact, and the `as u64` cast of the floor saturates at `u64::MAX`,
as Rust float-to-integer casts do (the value is never negative or
NaN). -/
def estKvMb (q : KvQuant) (hidden_size hidden_layers ctx : Nat) : Nat :=
  min (Fl.floorNat (flDivNat (flMul (flMul (flMul q.bytes_per_value
    (flOfNat hidden_size)) (flOfNat hidden_layers)) (flOfNat ctx)) 1000000)) U64MAX

/-- Embeds `estimate_memory`: read the header, resolve the total model size in
bytes, and compute the estimate.  `.getD 0` embeds the `unwrap()`
calls, which cannot panic because `read_model_params` only succeeds
with the fields present. -/
def estimate_memory (fs : FS) (path : String) (context_tokens : Nat)
    (kv_quant : KvQuant) : Except IoErr (Option MemoryEstimation) :=
  match fs path with
  | none => .error .notFound
  | some fd => do
    let (params, _) ← read_model_params fd.header
    let file_size := fd.size
    let total_bytes := estTotalBytes params.split_count path file_size
    let model_mb := total_bytes / 1000000
    let kv_mb := estKvMb kv_quant (params.hidden_size.getD 0)
      (params.hidden_layers.getD 0) context_tokens
    let total_mb := u64add model_mb kv_mb
    let display := fmt_memory total_mb ++ " (Model: " ++ fmt_memory model_mb ++
      " + KV: " ++ fmt_memory kv_mb ++ " @ " ++ kv_quant.label ++ ")"
    .ok (some ⟨model_mb, kv_mb, total_mb, display, kv_quant⟩)

/-- Unfolding of `estimate_memory` on a readable, well-formed file. -/
theorem estimate_memory_unfold (fs : FS) (path : String) (ctx : Nat) (q : KvQuant)
    (fd : FileData) (params : EstParams) (rest : List Nat)
    (h1 : fs path = some fd) (h2 : read_model_params fd.header = .ok (params, rest)) :
    estimate_memory fs path ctx q =
      .ok (some
        { model_size_mb := estTotalBytes params.split_count path fd.size / 1000000
          kv_cache_mb := estKvMb q (params.hidden_size.getD 0)
            (params.hidden_layers.getD 0) ctx
          total_required_mb := u64add (estTotalBytes params.split_count path fd.size / 1000000)
            (estKvMb q (params.hidden_size.getD 0) (params.hidden_layers.getD 0) ctx)
          display := fmt_memory (u64add (estTotalBytes params.split_count path fd.size / 1000000)
              (estKvMb q (params.hidden_size.getD 0) (params.hidden_layers.getD 0) ctx)) ++
            " (Model: " ++ fmt_memory (estTotalBytes params.split_count path fd.size / 1000000) ++
            " + KV: " ++ fmt_memory (estKvMb q (params.hidden_size.getD 0)
              (params.hidden_layers.getD 0) ctx) ++
            " @ " ++ q.label ++ ")"
          kv_quant := q }) := by
  rw [estimate_memory, h1]
  simp only [h2]
  rfl

/-! ### Concrete GGUF headers for the witnesses -/

/-- Little-endian 4-byte encoding. -/
def le4 (n : Nat) : List Nat :=
  [n % 256, n / 256 % 256, n / 256 ^ 2 % 256, n / 256 ^ 3 % 256]

/-- Little-endian 8-byte encoding. -/
def le8 (n : Nat) : List Nat :=
  [n % 256, n / 256 % 256, n / 256 ^ 2 % 256, n / 256 ^ 3 % 256,
   n / 256 ^ 4 % 256, n / 256 ^ 5 % 256, n / 256 ^ 6 % 256, n / 256 ^ 7 % 256]

/-- A GGUF string: u64 length then the (ASCII) bytes. -/
def ggufStr (s : String) : List Nat :=
  le8 s.length ++ s.data.map Char.toNat

/-- A metadata entry holding a u32 (type 4) value. -/
def ggufEntryU32 (key : String) (v : Nat) : List Nat :=
  ggufStr key ++ le4 4 ++ le4 v

/-- A metadata entry holding a u64 (type 10) value. -/
def ggufEntryU64 (key : String) (v : Nat) : List Nat :=
  ggufStr key ++ le4 10 ++ le8 v

/-- A version-3 GGUF header: magic, version, tensor count 0, entry
count, entries. -/
def ggufHeader (entries : List (List Nat)) : List Nat :=
  le4 0x46554747 ++ le4 3 ++ le8 0 ++ le8 entries.length ++ entries.flatten

/-- The well-formed small file of the spec's scenario 3:
head_count 32, block_count 32, embedding_length 4096. -/
def headerScenario3 : List Nat :=
  ggufHeader [ggufEntryU32 "llama.attention.head_count" 32,
    ggufEntryU32 "llama.block_count" 32,
    ggufEntryU32 "llama.embedding_length" 4096]

/-! ### Concrete file systems for the estimator claims -/

/-- A file system holding exactly one file. -/
def singleFS (path : String) (fd : FileData) : FS :=
  fun p => if p = path then some fd else none

/-- Scenario 3 of the spec: the well-formed small file, 5 MB on disk. -/
def fsScenario3 : FS := singleFS "/models/a.gguf" ⟨headerScenario3, 5000000⟩

/-- A header with extreme (but representable) metadata values:
block_count 2^30, embedding_length 2^63. -/
def headerHuge : List Nat :=
  ggufHeader [ggufEntryU32 "llama.attention.head_count" 32,
    ggufEntryU32 "llama.block_count" (2 ^ 30),
    ggufEntryU64 "llama.embedding_length" (2 ^ 63)]

def fsHuge : FS := singleFS "/models/huge.gguf" ⟨headerHuge, 5000000⟩

/-- A header whose embedding_length 3999999999999999999 is not exactly
representable as a double: the `as f64` cast rounds it up to
4000000000000000000. -/
def headerRound : List Nat :=
  ggufHeader [ggufEntryU32 "llama.attention.head_count" 32,
    ggufEntryU32 "llama.block_count" 1,
    ggufEntryU64 "llama.embedding_length" 3999999999999999999]

def fsRound : FS := singleFS "/models/round.gguf" ⟨headerRound, 5000000⟩

/-- The header for the spec's display scenario: embedding_length 1000,
block_count 500, on a 2.6 GB file. -/
def headerC9 : List Nat :=
  ggufHeader [ggufEntryU32 "llama.attention.head_count" 32,
    ggufEntryU32 "llama.block_count" 500,
    ggufEntryU32 "llama.embedding_length" 1000]

def fsC9 : FS := singleFS "/models/c9.gguf" ⟨headerC9, 2600000000⟩

/-- A header carrying `split.count = 2` ahead of the required keys. -/
def headerSplit2 : List Nat :=
  ggufHeader [ggufEntryU32 "split.count" 2,
    ggufEntryU32 "llama.attention.head_count" 32,
    ggufEntryU32 "llama.block_count" 32,
    ggufEntryU32 "llama.embedding_length" 4096]

/-- A sharded-looking filename with no split metadata. -/
def fsShardNoMeta : FS := singleFS "/models/m-001-of-005.gguf" ⟨headerScenario3, 5000000⟩

/-- A sharded-looking filename with split metadata 2. -/
def fsShardMeta2 : FS := singleFS "/models/m-001-of-005.gguf" ⟨headerSplit2, 5000000⟩

/-- An extensionless sharded filename with split metadata 2. -/
def fsShardNoExt : FS := singleFS "/models/m-001-of-005" ⟨headerSplit2, 5000000⟩

set_option maxRecDepth 40000 in
/-- Parsing the scenario-3 header. -/
theorem readS3 : read_model_params headerScenario3 =
    .ok (⟨some 32, some 32, some 32, some 4096, none⟩, []) := rfl

set_option maxRecDepth 40000 in
/-- Parsing the extreme header. -/
theorem readHuge : read_model_params headerHuge =
    .ok (⟨some 32, some 32, some (2 ^ 30), some (2 ^ 63), none⟩, []) := rfl

set_option maxRecDepth 40000 in
/-- Parsing the rounding header. -/
theorem readRound : read_model_params headerRound =
    .ok (⟨some 32, some 32, some 1, some 3999999999999999999, none⟩, []) := rfl

set_option maxRecDepth 40000 in
/-- Parsing the display-scenario header. -/
theorem readC9 : read_model_params headerC9 =
    .ok (⟨some 32, some 32, some 500, some 1000, none⟩, []) := rfl

set_option maxRecDepth 40000 in
/-- Parsing the split-2 header. -/
theorem readSplit2 : read_model_params headerSplit2 =
    .ok (⟨some 32, some 32, some 32, some 4096, some 2⟩, []) := rfl

set_option maxRecDepth 100000 in
/-- KV cache of the scenario-3 configuration: 1073 MB (every double in
the pipeline is exact there). -/
theorem estKvMb_s3 : estKvMb .Int8 4096 32 4096 = 1073 := by decide

/-- Exact value of the ideal (real-number) KV floor at the scenario-3
configuration: it agrees with the f64 pipeline there. -/
theorem s3Floor : ⌊(KvQuant.Int8.bytes_per_value).toRat * ((4096 : Nat) : ℚ) *
    ((32 : Nat) : ℚ) * ((4096 : Nat) : ℚ) / 1000000⌋ = 1073 := by
  rw [Int.floor_eq_iff]
  norm_num [KvQuant.bytes_per_value, Fl.toRat]

/-- Exact value of the ideal (real-number) KV floor at the extreme
configuration. -/
theorem hugeFloor : ⌊(KvQuant.Int8.bytes_per_value).toRat * ((2 ^ 63 : Nat) : ℚ) *
    ((2 ^ 30 : Nat) : ℚ) * ((2 ^ 30 : Nat) : ℚ) / 1000000⌋ =
    21267647932558653966460912964485 := by
  rw [Int.floor_eq_iff]
  norm_num [KvQuant.bytes_per_value, Fl.toRat]

set_option maxRecDepth 100000 in
/-- At the extreme configuration the saturating `as u64` cast clips the
KV megabytes to `u64::MAX`. -/
theorem estKvMb_huge : estKvMb .Int8 (2 ^ 63) (2 ^ 30) (2 ^ 30) = U64MAX := by decide

/-- Exact value of the ideal (real-number) KV floor at the rounding
configuration: one less than what the f64 pipeline produces. -/
theorem roundFloor : ⌊(KvQuant.Q4.bytes_per_value).toRat *
    ((3999999999999999999 : Nat) : ℚ) * ((1 : Nat) : ℚ) * ((1 : Nat) : ℚ) /
    1000000⌋ = 3999999999999 := by
  rw [Int.floor_eq_iff]
  norm_num [KvQuant.bytes_per_value, Fl.toRat]

set_option maxRecDepth 100000 in
/-- At the rounding configuration the `as f64` cast of the embedding
length rounds up to 4000000000000000000 (the ulp there is 512), so the
KV megabytes come out to 4000000000000 although the exact floor is
3999999999999. -/
theorem estKvMb_round : estKvMb .Q4 3999999999999999999 1 1 = 4000000000000 := by decide

set_option maxRecDepth 100000 in
/-- KV cache of the display scenario: 500 MB (every double in the
pipeline is exact there). -/
theorem estKvMb_c9 : estKvMb .Q4 1000 500 1000 = 500 := by decide

set_option maxRecDepth 40000 in
/-- Full evaluation of the scenario-3 estimate. -/
theorem estimateS3_eval : estimate_memory fsScenario3 "/models/a.gguf" 4096 .Int8 =
    .ok (some ⟨5, 1073, 1078, "1.1 GB (Model: 5 MB + KV: 1.1 GB @ INT8)", .Int8⟩) := by
  rw [estimate_memory_unfold fsScenario3 "/models/a.gguf" 4096 .Int8
    ⟨headerScenario3, 5000000⟩ ⟨some 32, some 32, some 32, some 4096, none⟩ [] rfl readS3]
  dsimp only [Option.getD_some]
  rw [estKvMb_s3]
  rfl

set_option maxRecDepth 100000 in
/-- Full evaluation of the extreme estimate: the KV term saturates and
the total wraps around to 4. -/
theorem estimateHuge_eval : estimate_memory fsHuge "/models/huge.gguf" (2 ^ 30) .Int8 =
    .ok (some ⟨5, U64MAX, 4,
      "4 MB (Model: 5 MB + KV: 18446744073709552.0 GB @ INT8)", .Int8⟩) := by
  rw [estimate_memory_unfold fsHuge "/models/huge.gguf" (2 ^ 30) .Int8
    ⟨headerHuge, 5000000⟩ ⟨some 32, some 32, some (2 ^ 30), some (2 ^ 63), none⟩ [] rfl readHuge]
  dsimp only [Option.getD_some]
  rw [estKvMb_huge]
  rfl

set_option maxRecDepth 100000 in
/-- Full evaluation of the rounding estimate: the KV term exceeds the
exact floor by one. -/
theorem estimateRound_eval : estimate_memory fsRound "/models/round.gguf" 1 .Q4 =
    .ok (some ⟨5, 4000000000000, 4000000000005,
      "4000000000.0 GB (Model: 5 MB + KV: 4000000000.0 GB @ Q4 (4‑bit))", .Q4⟩) := by
  rw [estimate_memory_unfold fsRound "/models/round.gguf" 1 .Q4
    ⟨headerRound, 5000000⟩ ⟨some 32, some 32, some 1, some 3999999999999999999, none⟩
    [] rfl readRound]
  dsimp only [Option.getD_some]
  rw [estKvMb_round]
  rfl

set_option maxRecDepth 40000 in
/-- Full evaluation of the display-scenario estimate. -/
theorem estimateC9_eval : estimate_memory fsC9 "/models/c9.gguf" 1000 .Q4 =
    .ok (some ⟨2600, 500, 3100,
      "3.1 GB (Model: 2.6 GB + KV: 500 MB @ Q4 (4‑bit))", .Q4⟩) := by
  rw [estimate_memory_unfold fsC9 "/models/c9.gguf" 1000 .Q4
    ⟨headerC9, 2600000000⟩ ⟨some 32, some 32, some 500, some 1000, none⟩ [] rfl readC9]
  dsimp only [Option.getD_some]
  rw [estKvMb_c9]
  rfl

set_option maxRecDepth 40000 in
/-- With no split metadata the sharded-looking filename changes
nothing: 5 MB model size. -/
theorem estimateShardNoMeta_eval :
    estimate_memory fsShardNoMeta "/models/m-001-of-005.gguf" 4096 .Int8 =
    .ok (some ⟨5, 1073, 1078, "1.1 GB (Model: 5 MB + KV: 1.1 GB @ INT8)", .Int8⟩) := by
  rw [estimate_memory_unfold fsShardNoMeta "/models/m-001-of-005.gguf" 4096 .Int8
    ⟨headerScenario3, 5000000⟩ ⟨some 32, some 32, some 32, some 4096, none⟩ [] rfl readS3]
  dsimp only [Option.getD_some]
  rw [estKvMb_s3]
  rfl

set_option maxRecDepth 40000 in
/-- With split metadata 2 and an extension-bearing filename the
metadata count is used: 10 MB model size, not 25. -/
theorem estimateShardMeta2_eval :
    estimate_memory fsShardMeta2 "/models/m-001-of-005.gguf" 4096 .Int8 =
    .ok (some ⟨10, 1073, 1083, "1.1 GB (Model: 10 MB + KV: 1.1 GB @ INT8)", .Int8⟩) := by
  rw [estimate_memory_unfold fsShardMeta2 "/models/m-001-of-005.gguf" 4096 .Int8
    ⟨headerSplit2, 5000000⟩ ⟨some 32, some 32, some 32, some 4096, some 2⟩ [] rfl readSplit2]
  dsimp only [Option.getD_some]
  rw [estKvMb_s3]
  rfl

set_option maxRecDepth 40000 in
/-- With split metadata 2 and an extensionless matching filename the
filename count 5 wins: 25 MB model size. -/
theorem estimateShardNoExt_eval :
    estimate_memory fsShardNoExt "/models/m-001-of-005" 4096 .Int8 =
    .ok (some ⟨25, 1073, 1098, "1.1 GB (Model: 25 MB + KV: 1.1 GB @ INT8)", .Int8⟩) := by
  rw [estimate_memory_unfold fsShardNoExt "/models/m-001-of-005" 4096 .Int8
    ⟨headerSplit2, 5000000⟩ ⟨some 32, some 32, some 32, some 4096, some 2⟩ [] rfl readSplit2]
  dsimp only [Option.getD_some]
  rw [estKvMb_s3]
  rfl

/-! ### The shard pattern anchors at the very end of the filename -/

/-- The last element of a list is a member. -/
theorem getLast?_mem' {α : Type} : ∀ (l : List α) (a : α), l.getLast? = some a → a ∈ l := by
  intro l
  induction l with
  | nil => intro a h; simp at h
  | cons c rest ih =>
    intro a h
    cases rest with
    | nil => simp at h; simp [h]
    | cons d ds =>
      rw [List.getLast?_cons_cons] at h
      exact List.mem_cons_of_mem c (ih a h)

/-- Dropping a non-exhausting prefix keeps the last element. -/
theorem getLast?_drop_of_ne_nil {α : Type} (l : List α) (n : Nat) (h : l.drop n ≠ []) :
    l.getLast? = (l.drop n).getLast? := by
  conv_lhs => rw [← List.take_append_drop n l]
  rw [List.getLast?_append]
  rcases hd : (l.drop n).getLast? with _ | c
  · rw [List.getLast?_eq_none_iff] at hd
    exact absurd hd h
  · rfl

/-- A successful shard-suffix match pins a digit to the very end of the
character list. -/
theorem shardSuffixAt_last (cs : List Char) (v : Nat) (h : shardSuffixAt cs = some v) :
    ∃ c, cs.getLast? = some c ∧ isAsciiDigit c = true := by
  match cs with
  | [] => simp [shardSuffixAt] at h
  | c0 :: rest =>
    rw [shardSuffixAt] at h
    by_cases hc : c0 = '-'
    case neg => rw [if_neg hc] at h; exact absurd h (by simp)
    rw [if_pos hc] at h
    by_cases hds1 : (rest.takeWhile isAsciiDigit).isEmpty
    case pos => rw [if_pos hds1] at h; exact absurd h (by simp)
    rw [if_neg hds1] at h
    by_cases htake : (rest.drop (rest.takeWhile isAsciiDigit).length).take 4 = ['-', 'o', 'f', '-']
    case neg => rw [if_neg htake] at h; exact absurd h (by simp)
    rw [if_pos htake] at h
    by_cases hds2 : ((rest.drop (rest.takeWhile isAsciiDigit).length).drop 4).isEmpty
    case pos => rw [if_pos hds2] at h; exact absurd h (by simp)
    rw [if_neg hds2] at h
    by_cases hdig : allDigits ((rest.drop (rest.takeWhile isAsciiDigit).length).drop 4)
    case neg => rw [if_neg hdig] at h; exact absurd h (by simp)
    have hne : (rest.drop (rest.takeWhile isAsciiDigit).length).drop 4 ≠ [] := by
      simpa using hds2
    have hrest2ne : rest.drop (rest.takeWhile isAsciiDigit).length ≠ [] := by
      intro hnil
      rw [hnil] at hne
      simp at hne
    have hrestne : rest ≠ [] := by
      intro hnil
      rw [hnil] at hrest2ne
      simp at hrest2ne
    rcases hlast : ((rest.drop (rest.takeWhile isAsciiDigit).length).drop 4).getLast? with _ | c
    · rw [List.getLast?_eq_none_iff] at hlast
      exact absurd hlast hne
    · refine ⟨c, ?_, ?_⟩
      · have e1 : (c0 :: rest).getLast? = rest.getLast? := by
          have := getLast?_drop_of_ne_nil (c0 :: rest) 1 (by simpa using hrestne)
          simpa using this
        rw [e1, getLast?_drop_of_ne_nil rest (rest.takeWhile isAsciiDigit).length hrest2ne,
          getLast?_drop_of_ne_nil _ 4 hne, hlast]
      · have hmem := getLast?_mem' _ _ hlast
        rw [allDigits, List.all_eq_true] at hdig
        exact hdig c hmem

/-- A successful scan for the shard pattern pins a digit to the very
end of the scanned characters. -/
theorem shardScan_last : ∀ (cs : List Char) (v : Nat), shardScan cs = some v →
    ∃ c, cs.getLast? = some c ∧ isAsciiDigit c = true := by
  intro cs
  induction cs with
  | nil => intro v h; simp [shardScan] at h
  | cons c0 rest ih =>
    intro v h
    rw [shardScan] at h
    rcases hs : shardSuffixAt (c0 :: rest) with _ | w
    · rw [hs] at h
      simp only at h
      obtain ⟨c, hl, hd⟩ := ih v h
      have hrestne : rest ≠ [] := by
        intro hnil
        rw [hnil] at hl
        simp at hl
      refine ⟨c, ?_, hd⟩
      have e1 : (c0 :: rest).getLast? = rest.getLast? := by
        have := getLast?_drop_of_ne_nil (c0 :: rest) 1 (by simpa using hrestne)
        simpa using this
      rw [e1, hl]
    · exact shardSuffixAt_last _ w hs

/-! ### Claims C5, C8, C9 -/

/-- C5 counterexample: for the path `/models/m-001-of-005.gguf` — whose
filename stem matches `-<digits>-of-<digits>` with trailing count 5 —
the filename inference yields nothing (the regex is applied to the full
filename, extension included), so with the metadata omitting
`split.count` the model size stays at the single-shard 5 MB instead of
the claimed 25 MB, and with metadata `split.count = 2` the metadata
count is used (10 MB), again not the filename's 5. -/
theorem c5_counterexample :
    infer_split_count_from_path "/models/m-001-of-005.gguf" = none ∧
    estimate_memory fsShardNoMeta "/models/m-001-of-005.gguf" 4096 .Int8 =
      .ok (some ⟨5, 1073, 1078, "1.1 GB (Model: 5 MB + KV: 1.1 GB @ INT8)", .Int8⟩) ∧
    estimate_memory fsShardMeta2 "/models/m-001-of-005.gguf" 4096 .Int8 =
      .ok (some ⟨10, 1073, 1083, "1.1 GB (Model: 10 MB + KV: 1.1 GB @ INT8)", .Int8⟩) :=
  ⟨by decide, estimateShardNoMeta_eval, estimateShardMeta2_eval⟩

/-- C5 as amended: the filename-inferred shard count is consulted only
when the metadata `split.count` exceeds 1, and the pattern
`-(\d+)-of-(\d+)$` must match at the very end of the full filename,
extension included (any successful inference ends in a digit).  When
the metadata count is absent the file size is used as is, whatever the
filename; when the metadata count exceeds 1 and the filename matches
with count M, the effective size is `saturating_mul(S, M)`. -/
theorem c5_shard_count_resolution :
    (∀ (p : String) (M : Nat), infer_split_count_from_path p = some M →
      ∃ name c, pathFileName p = some name ∧ name.getLast? = some c ∧
        isAsciiDigit c = true) ∧
    (∀ (fs : FS) (path : String) (ctx : Nat) (q : KvQuant) (fd : FileData)
      (params : EstParams) (rest : List Nat),
      fs path = some fd → read_model_params fd.header = .ok (params, rest) →
      params.split_count = none →
      ∃ est, estimate_memory fs path ctx q = .ok (some est) ∧
        est.model_size_mb = fd.size / 1000000) ∧
    (∀ (fs : FS) (path : String) (ctx : Nat) (q : KvQuant) (fd : FileData)
      (params : EstParams) (rest : List Nat) (c M : Nat),
      fs path = some fd → read_model_params fd.header = .ok (params, rest) →
      params.split_count = some c → c > 1 →
      infer_split_count_from_path path = some M →
      ∃ est, estimate_memory fs path ctx q = .ok (some est) ∧
        est.model_size_mb = u64mulSat fd.size M / 1000000) ∧
    estimate_memory fsShardNoExt "/models/m-001-of-005" 4096 .Int8 =
      .ok (some ⟨25, 1073, 1098, "1.1 GB (Model: 25 MB + KV: 1.1 GB @ INT8)", .Int8⟩) := by
  refine ⟨?_, ?_, ?_, estimateShardNoExt_eval⟩
  · intro p M h
    rw [infer_split_count_from_path] at h
    rcases hf : pathFileName p with _ | name
    · simp only [hf] at h
      exact Option.noConfusion h
    · simp only [hf] at h
      rcases hsc : shardScan name with _ | t0
      · simp only [hsc] at h
        exact Option.noConfusion h
      · obtain ⟨c, hl, hd⟩ := shardScan_last name t0 hsc
        exact ⟨name, c, rfl, hl, hd⟩
  · intro fs path ctx q fd params rest h1 h2 hsplit
    refine ⟨_, estimate_memory_unfold fs path ctx q fd params rest h1 h2, ?_⟩
    show estTotalBytes params.split_count path fd.size / 1000000 = fd.size / 1000000
    rw [hsplit, estTotalBytes]
  · intro fs path ctx q fd params rest c M h1 h2 hsplit hc hinfer
    refine ⟨_, estimate_memory_unfold fs path ctx q fd params rest h1 h2, ?_⟩
    show estTotalBytes params.split_count path fd.size / 1000000 =
      u64mulSat fd.size M / 1000000
    rw [hsplit, estTotalBytes]
    simp only [hinfer, if_pos hc, Option.getD_some]

/-- C5 witness: applying the amended claim at the extensionless shard
path with metadata split count 2, where the filename count 5 is
authoritative: 25 MB model size. -/
theorem c5_shard_count_resolution_witness :
    ∃ est, estimate_memory fsShardNoExt "/models/m-001-of-005" 4096 .Int8 =
      .ok (some est) ∧ est.model_size_mb = u64mulSat 5000000 5 / 1000000 :=
  c5_shard_count_resolution.2.2.1 fsShardNoExt "/models/m-001-of-005" 4096 .Int8
    ⟨headerSplit2, 5000000⟩ ⟨some 32, some 32, some 32, some 4096, some 2⟩ [] 2 5
    rfl readSplit2 rfl (by decide) (by decide)

/-- C8 counterexample: the claimed exact equalities fail on parseable
weight files in two independent ways.  With embedding_length
3999999999999999999, block_count 1 and context 1 at Q4, the `as f64`
cast rounds the embedding length up to 4000000000000000000 (the ulp
there is 512), so `kvCacheMB` is 4000000000000 while the claimed exact
floor is 3999999999999.  With embedding_length 2^63, block_count 2^30
and context 2^30 at INT8, the `as u64` cast saturates, so `kvCacheMB`
is `u64::MAX` rather than the exact floor, and `totalRequiredMB` wraps
to 4 rather than being `modelSizeMB + kvCacheMB`. -/
theorem c8_counterexample :
    (estimate_memory fsRound "/models/round.gguf" 1 .Q4).map
      (Option.map fun est => (est.model_size_mb, est.kv_cache_mb, est.total_required_mb)) =
      .ok (some (5, 4000000000000, 4000000000005)) ∧
    (4000000000000 : Int) ≠ ⌊(KvQuant.Q4.bytes_per_value).toRat *
      ((3999999999999999999 : Nat) : ℚ) * ((1 : Nat) : ℚ) * ((1 : Nat) : ℚ) /
      1000000⌋ ∧
    (estimate_memory fsHuge "/models/huge.gguf" (2 ^ 30) .Int8).map
      (Option.map fun est => (est.model_size_mb, est.kv_cache_mb, est.total_required_mb)) =
      .ok (some (5, U64MAX, 4)) ∧
    (U64MAX : Int) ≠ ⌊(KvQuant.Int8.bytes_per_value).toRat * ((2 ^ 63 : Nat) : ℚ) *
      ((2 ^ 30 : Nat) : ℚ) * ((2 ^ 30 : Nat) : ℚ) / 1000000⌋ ∧
    (4 : Nat) ≠ 5 + U64MAX := by
  refine ⟨?_, ?_, ?_, ?_, by decide⟩
  · rw [estimateRound_eval]; rfl
  · rw [roundFloor]; decide
  · rw [estimateHuge_eval]; rfl
  · rw [hugeFloor]; decide

/-- C8 as amended: `kvCacheMB` is the `f64` evaluation of
`bytesPerValue(kvQuant) × embeddingLength × blockCount × contextTokens
/ 1_000_000`, floored, with the `as u64` cast saturating at `u64::MAX`
— it equals the exact floor only where every rounding step is exact —
and `totalRequiredMB = (modelSizeMB + kvCacheMB) mod 2^64` for every
successfully parsed weight file; the bytes-per-value table is exactly
8, 4, 2, 1.5, 1.25, 1; and at the spec's concrete instance (embedding
4096, blocks 32, context 4096, INT8) every double is exact, so
`kvCacheMB = 1073`, which is exactly
`floor(2.0 × 4096 × 32 × 4096 / 1_000_000)`. -/
theorem c8_kv_cache_formula :
    (∀ (fs : FS) (path : String) (ctx : Nat) (q : KvQuant) (fd : FileData)
      (params : EstParams) (rest : List Nat),
      fs path = some fd → read_model_params fd.header = .ok (params, rest) →
      ∃ est, estimate_memory fs path ctx q = .ok (some est) ∧
        est.total_required_mb = u64add est.model_size_mb est.kv_cache_mb) ∧
    (KvQuant.FP32.bytes_per_value).toRat = 8 ∧
    (KvQuant.FP16.bytes_per_value).toRat = 4 ∧
    (KvQuant.Int8.bytes_per_value).toRat = 2 ∧
    (KvQuant.Q6.bytes_per_value).toRat = 1.5 ∧
    (KvQuant.Q5.bytes_per_value).toRat = 1.25 ∧
    (KvQuant.Q4.bytes_per_value).toRat = 1 ∧
    (estimate_memory fsScenario3 "/models/a.gguf" 4096 .Int8).map
      (Option.map fun est => (est.kv_cache_mb, est.total_required_mb)) =
      .ok (some (1073, 1078)) ∧
    (1073 : Int) = ⌊(KvQuant.Int8.bytes_per_value).toRat * ((4096 : Nat) : ℚ) *
      ((32 : Nat) : ℚ) * ((4096 : Nat) : ℚ) / 1000000⌋ := by
  refine ⟨?_, by norm_num [KvQuant.bytes_per_value, Fl.toRat],
    by norm_num [KvQuant.bytes_per_value, Fl.toRat],
    by norm_num [KvQuant.bytes_per_value, Fl.toRat],
    by norm_num [KvQuant.bytes_per_value, Fl.toRat],
    by norm_num [KvQuant.bytes_per_value, Fl.toRat],
    by norm_num [KvQuant.bytes_per_value, Fl.toRat],
    by rw [estimateS3_eval]; rfl, s3Floor.symm⟩
  intro fs path ctx q fd params rest h1 h2
  exact ⟨_, estimate_memory_unfold fs path ctx q fd params rest h1 h2, rfl⟩

/-- C8 witness: the amended total relation applied at the spec's
concrete scenario-3 file. -/
theorem c8_kv_cache_formula_witness :
    ∃ est, estimate_memory fsScenario3 "/models/a.gguf" 4096 .Int8 = .ok (some est) ∧
      est.total_required_mb = u64add est.model_size_mb est.kv_cache_mb :=
  c8_kv_cache_formula.1 fsScenario3 "/models/a.gguf" 4096 .Int8
    ⟨headerScenario3, 5000000⟩ ⟨some 32, some 32, some 32, some 4096, none⟩ [] rfl readS3

/-- C9 counterexample: at total 3100 MB, model 2600 MB, kv 500 MB and
quant Q4 the display is NOT the claimed ASCII string — the source's Q4
label carries U+2011 NON-BREAKING HYPHEN, not `-`. -/
theorem c9_counterexample :
    estimate_memory fsC9 "/models/c9.gguf" 1000 .Q4 =
      .ok (some ⟨2600, 500, 3100,
        "3.1 GB (Model: 2.6 GB + KV: 500 MB @ Q4 (4‑bit))", .Q4⟩) ∧
    "3.1 GB (Model: 2.6 GB + KV: 500 MB @ Q4 (4‑bit))" ≠
      "3.1 GB (Model: 2.6 GB + KV: 500 MB @ Q4 (4-bit))" :=
  ⟨estimateC9_eval, by decide⟩

/-- C9 as amended: every estimate's display string is
`<total> (Model: <model> + KV: <kv> @ <label>)` with each size rendered
by `fmt_memory` (at least 1000 MB as one-decimal gigabytes, below that
as whole megabytes); the Q4/Q5/Q6 labels use U+2011 NON-BREAKING
HYPHEN; and the concrete instance renders exactly
`3.1 GB (Model: 2.6 GB + KV: 500 MB @ Q4 (4‑bit))`. -/
theorem c9_display_format :
    (∀ (fs : FS) (path : String) (ctx : Nat) (q : KvQuant) (est : MemoryEstimation),
      estimate_memory fs path ctx q = .ok (some est) →
      est.display = fmt_memory est.total_required_mb ++ " (Model: " ++
        fmt_memory est.model_size_mb ++ " + KV: " ++ fmt_memory est.kv_cache_mb ++
        " @ " ++ q.label ++ ")") ∧
    KvQuant.Q4.label = "Q4 (4‑bit)" ∧ KvQuant.Q5.label = "Q5 (5‑bit)" ∧
    KvQuant.Q6.label = "Q6 (6‑bit)" ∧
    estimate_memory fsC9 "/models/c9.gguf" 1000 .Q4 =
      .ok (some ⟨2600, 500, 3100,
        "3.1 GB (Model: 2.6 GB + KV: 500 MB @ Q4 (4‑bit))", .Q4⟩) := by
  refine ⟨?_, rfl, rfl, rfl, estimateC9_eval⟩
  intro fs path ctx q est hest
  rcases hfs : fs path with _ | fd
  · rw [estimate_memory, hfs] at hest
    exact Except.noConfusion hest
  · rcases hrp : read_model_params fd.header with e | pr
    · simp only [estimate_memory, hfs] at hest
      rw [hrp] at hest
      exact Except.noConfusion hest
    · obtain ⟨params, rest⟩ := pr
      rw [estimate_memory_unfold fs path ctx q fd params rest hfs hrp] at hest
      simp only [Except.ok.injEq, Option.some.injEq] at hest
      subst hest
      rfl

/-- C9 witness: the display format applied at the concrete display
scenario. -/
theorem c9_display_format_witness :
    (⟨2600, 500, 3100, "3.1 GB (Model: 2.6 GB + KV: 500 MB @ Q4 (4‑bit))", .Q4⟩ :
      MemoryEstimation).display =
    fmt_memory 3100 ++ " (Model: " ++ fmt_memory 2600 ++ " + KV: " ++ fmt_memory 500 ++
      " @ " ++ KvQuant.Q4.label ++ ")" :=
  c9_display_format.1 fsC9 "/models/c9.gguf" 1000 .Q4 _ estimateC9_eval

/-! ## Configuration (src/config/config.rs)

The sampling parameters (`temperature`, `top_k`, `top_p`, `min_p`,
`repetition_penalty`: `f32` values) and the cache-type and flag fields
of `ModelParams` are forwarded verbatim to the container command line
and are not consumed by any operation embedded here; they are omitted
from the embedded `ModelParams`. -/

/-- Embeds `DraftModelConfig` (the two cache-type fields are not consumed by
the embedded operations and are omitted). -/
structure DraftModelConfig where
  file : String
deriving DecidableEq

/-- The embedded slice of `ModelParams`: the context size (an `i32`
inside `ContextSize`). -/
structure ModelParams where
  context : Int
deriving DecidableEq

/-- Embeds `ModelConfig`. -/
structure ModelConfig where
  file : String
  params : ModelParams
  draft : Option DraftModelConfig
deriving DecidableEq

/-- Embeds `DockerConfig`. -/
structure DockerConfig where
  image : String
  volume_mount : String
  network_name : String
deriving DecidableEq

/-- The struct `Config` of config.rs (renamed to avoid ambiguity with
Lean library names).  `models` is a `HashMap`; the association list
stands for one of its iteration orders, and every theorem quantifies
over the list, hence over all orders. -/
structure RouterConfig where
  docker : DockerConfig
  models : List (String × ModelConfig)
deriving DecidableEq

/-- Embeds `Model` (src/model.rs). -/
structure Model where
  estimated_memory_usage : Nat
  model_name : String
  container_name : String
  config : ModelConfig
deriving DecidableEq

/-- Embeds `Config::get_host_model_path`. -/
def get_host_model_path (c : RouterConfig) (file_name : String) : String :=
  c.docker.volume_mount ++ "/" ++ file_name

/-- Rust `i32 as usize`: sign-extend and reinterpret, i.e. reduce
modulo 2^64. -/
def usizeOfI32 (n : Int) : Nat := (n % 2 ^ 64).toNat

/-- Embeds `Config::get_model_from_config`: the container name is
`llm_<name>`; the draft model (if any) is estimated with `KvQuant::Q4`
and a failed or absent draft estimate contributes 0; the main file is
estimated with `KvQuant::Int8` and a failed estimate becomes
`u64::MAX`; the two are then added with a wrapping `u64` `+` (a debug
build would panic on overflow). -/
def get_model_from_config (fs : FS) (c : RouterConfig) (model_name : String)
    (mc : ModelConfig) : Model :=
  let container_name := "llm_" ++ model_name
  let ctx_size := usizeOfI32 mc.params.context
  let draft_estimated_memory_usage :=
    (mc.draft.bind fun draft =>
      ((estimate_memory fs (get_host_model_path c draft.file) ctx_size .Q4).toOption.bind
        id).map (·.total_required_mb)).getD 0
  let estimated_memory_usage :=
    u64add ((((estimate_memory fs (get_host_model_path c mc.file) ctx_size
      .Int8).toOption.bind id).map (·.total_required_mb)).getD U64MAX)
      draft_estimated_memory_usage
  { config := mc
    model_name := model_name
    container_name := container_name
    estimated_memory_usage := estimated_memory_usage }

/-- Embeds `Config::get_model`. -/
def RouterConfig.get_model (c : RouterConfig) (fs : FS) (model_name : String) :
    Option Model :=
  (c.models.lookup model_name).map fun mc => get_model_from_config fs c model_name mc

/-- Embeds `Config::get_all_models`. -/
def RouterConfig.get_all_models (c : RouterConfig) (fs : FS) : List Model :=
  c.models.map fun (name, mc) => get_model_from_config fs c name mc

/-! ### Claim C4 -/

/-- Two configured models sharing an unreadable weight file
`/vol/m.gguf`: `m` has a draft model whose file parses, `m2` has no
draft. -/
def cfgC4 : RouterConfig :=
  ⟨⟨"img", "/vol", "net"⟩,
   [("m", ⟨"m.gguf", ⟨1024⟩, some ⟨"d.gguf"⟩⟩),
    ("m2", ⟨"m.gguf", ⟨1024⟩, none⟩)]⟩

/-- The file system for C4: only the draft file exists. -/
def fsC4 : FS := singleFS "/vol/d.gguf" ⟨headerC9, 5000000⟩

set_option maxRecDepth 100000 in
/-- KV cache of the draft configuration: 512 MB (every double in the
pipeline is exact there). -/
theorem estKvMb_c4draft : estKvMb .Q4 1000 500 1024 = 512 := by decide

set_option maxRecDepth 40000 in
/-- Full evaluation of the draft estimate: 517 MB. -/
theorem estimateC4draft_eval : estimate_memory fsC4 "/vol/d.gguf" 1024 .Q4 =
    .ok (some ⟨5, 512, 517, "517 MB (Model: 5 MB + KV: 512 MB @ Q4 (4‑bit))", .Q4⟩) := by
  rw [estimate_memory_unfold fsC4 "/vol/d.gguf" 1024 .Q4
    ⟨headerC9, 5000000⟩ ⟨some 32, some 32, some 500, some 1000, none⟩ [] rfl readC9]
  dsimp only [Option.getD_some]
  rw [estKvMb_c4draft]
  rfl

set_option maxRecDepth 40000 in
/-- C4: when the main weight file is unreadable, a model WITHOUT a
draft does get `estimatedMemoryMB = u64::MAX`, but a model WITH a
successfully estimated draft gets `u64::MAX + 517` which wraps to 516
(a debug build panics) — a small value that passes an admission check
against 48000 MB of free VRAM, defeating the claimed guarantee. -/
theorem c4_estimate_overflow_with_draft :
    (cfgC4.get_model fsC4 "m2").map (·.estimated_memory_usage) = some U64MAX ∧
    (cfgC4.get_model fsC4 "m").map (·.estimated_memory_usage) = some 516 ∧
    (516 : Nat) ≠ U64MAX ∧ (516 : Nat) ≤ 48000 := by
  refine ⟨by decide, ?_, by decide, by decide⟩
  have hd : estimate_memory fsC4 (get_host_model_path cfgC4 "d.gguf")
      (usizeOfI32 (1024 : Int)) .Q4 =
      .ok (some ⟨5, 512, 517, "517 MB (Model: 5 MB + KV: 512 MB @ Q4 (4‑bit))", .Q4⟩) := by
    rw [show get_host_model_path cfgC4 "d.gguf" = "/vol/d.gguf" from rfl,
        show usizeOfI32 (1024 : Int) = 1024 from rfl]
    exact estimateC4draft_eval
  show (some (get_model_from_config fsC4 cfgC4 "m"
      ⟨"m.gguf", ⟨1024⟩, some ⟨"d.gguf"⟩⟩)).map (·.estimated_memory_usage) = some 516
  rw [Option.map_some']
  rw [get_model_from_config]
  dsimp only
  simp only [Option.some_bind]
  rw [hd]
  rw [show estimate_memory fsC4 (get_host_model_path cfgC4 "m.gguf")
      (usizeOfI32 (1024 : Int)) .Int8 = .error .notFound from rfl]
  decide

/-! ## Docker repository (src/repositories/docker_repository.rs)

The Docker daemon is external: its state is embedded as an association
list from container name to reported health (absence = the container
does not exist).  `inspect_container` is assumed to answer (its
transport errors are not modelled; every flow embedded here inspects
only containers it just ensured exist). -/

/-- The health state a container reports (enum `Health`; the Rust
`None` variant is `noHealth` here). -/
inductive Health where
  | healthy
  | starting
  | unhealthy
  | noHealth
deriving DecidableEq

/-- The Docker daemon's state: container name to health. -/
abbrev DockerState : Type := List (String × Health)

/-- Replace or add one binding of an association list. -/
def listUpsert {α : Type} : List (String × α) → String → α → List (String × α)
  | [], k, v => [(k, v)]
  | (k', v') :: rest, k, v =>
    if k' = k then (k, v) :: rest else (k', v') :: listUpsert rest k v

/-- Embeds `container_exists`: does inspection succeed? -/
def containerExists (d : DockerState) (name : String) : Bool :=
  (d.lookup name).isSome

/-- Embeds `is_running`: the health state is Healthy or Starting. -/
def dockerIsRunning (d : DockerState) (name : String) : Bool :=
  match d.lookup name with
  | some .healthy => true
  | some .starting => true
  | _ => false

/-- Embeds `create_server_container`: afterwards the container exists with no
health status yet. -/
def dockerCreate (d : DockerState) (name : String) : DockerState :=
  listUpsert d name .noHealth

/-- Embeds `stop_server_container`: the container remains but reports no
health status. -/
def dockerStop (d : DockerState) (name : String) : DockerState :=
  listUpsert d name .noHealth

/-- Embeds `start_server_container`: the container begins its startup. -/
def dockerStart (d : DockerState) (name : String) : DockerState :=
  listUpsert d name .starting

/-- Embeds `DockerRepository::get_hostname`: `<containerName>:8080`. -/
def get_hostname (m : Model) : String := m.container_name ++ ":8080"

/-! ## Scheduler (src/services/backend_server_manager.rs)

`get_available_memory` shells out to `rocm-smi` on every call; the
sequence of values it returns during one execution is an input here,
`probes : Nat → Nat` with a running index (the spec's re-probe design).
`SystemTime` is a `Nat` with `UNIX_EPOCH = 0`. -/

/-- Embeds `EstimateError` (the Docker variant's bollard payload is not
consumed by anything embedded here). -/
inductive EstimateError where
  | ModelNotFound (name : String)
  | Docker
  | FreeFailed (name : String)
deriving DecidableEq

/-- The thiserror display strings of `EstimateError` (for the Docker
variant Rust appends the payload's own message). -/
def EstimateError.toMessage : EstimateError → String
  | .ModelNotFound s => "Model " ++ s ++ " not found"
  | .Docker => "Error from Docker: "
  | .FreeFailed s => "Unable to free enough memory for model: " ++ s

/-- Modelled from the spec: struct `BackendServer` of
src/services/backend_server.rs, which is not among the provided source
files; per its uses and the spec (section 4.4) it carries the backend
hostname. -/
structure BackendServer where
  hostname : String
deriving DecidableEq

/-- One container operation the scheduler performed, in order. -/
inductive DockerAction where
  | create (name : String)
  | start (name : String)
  | stop (name : String)
deriving DecidableEq

/-- Embeds `model_fits`: the requested model's estimate against one probe of
`get_available_memory` (the `i`-th of this execution). -/
def model_fits (requested : Model) (probes : Nat → Nat) (i : Nat) : Bool :=
  requested.estimated_memory_usage ≤ probes i

/-- Results of fallible operations are compared in witnesses; `Except`
has no derived decidable equality in core. -/
instance {ε α : Type} [DecidableEq ε] [DecidableEq α] : DecidableEq (Except ε α) :=
  fun a b =>
    match a, b with
    | .ok x, .ok y => if h : x = y then .isTrue (by rw [h]) else .isFalse (by simp [h])
    | .error x, .error y => if h : x = y then .isTrue (by rw [h]) else .isFalse (by simp [h])
    | .ok _, .error _ => .isFalse (by simp)
    | .error _, .ok _ => .isFalse (by simp)

/-- Outcome of the admission-and-eviction scan. -/
structure ScanResult where
  result : Except EstimateError Unit
  docker : DockerState
  stopped : List Model
  probeIdx : Nat
deriving DecidableEq

/-- The candidate list of `unload_models_to_fit_if_necessary`: all
configured models other than the requested one whose container exists
and is running, paired with their last-used time (`UNIX_EPOCH = 0` when
never used), in configuration order. -/
def runningCandidates (fs : FS) (cfg : RouterConfig) (d : DockerState)
    (lu : List (String × Nat)) (requested : Model) : List (Model × Nat) :=
  ((cfg.get_all_models fs).filter fun m =>
    !(m.container_name == requested.container_name) &&
    containerExists d m.container_name && dockerIsRunning d m.container_name).map
    fun m => (m, (lu.lookup m.container_name).getD 0)

/-- The eviction loop: stop each candidate in order, re-probe, stop
when the requested model fits; exhausting the list is `FreeFailed`. -/
def unloadLoop (requested : Model) (probes : Nat → Nat) :
    List Model → DockerState → Nat → ScanResult
  | [], d, i => ⟨.error (.FreeFailed requested.model_name), d, [], i⟩
  | m :: rest, d, i =>
    let d' := dockerStop d m.container_name
    if model_fits requested probes i then ⟨.ok (), d', [m], i + 1⟩
    else
      let r := unloadLoop requested probes rest d' (i + 1)
      ⟨r.result, r.docker, m :: r.stopped, r.probeIdx⟩

/-- Embeds `unload_models_to_fit_if_necessary`: fast path, then the candidates
sorted ascending by last-used time (Rust's stable `sort_by_key` is
modelled by the stable insertion sort), then the eviction loop. -/
def unload_models_to_fit_if_necessary (fs : FS) (cfg : RouterConfig)
    (lu : List (String × Nat)) (requested : Model) (d : DockerState)
    (probes : Nat → Nat) (i : Nat) : ScanResult :=
  if model_fits requested probes i then ⟨.ok (), d, [], i + 1⟩
  else
    let sorted := (runningCandidates fs cfg d lu requested).insertionSort
      fun a b => a.2 ≤ b.2
    unloadLoop requested probes (sorted.map Prod.fst) d (i + 1)

/-- Outcome of `get_server`: the result, the updated last-used map, the
Docker state, the container operations performed (in order) and the
next probe index. -/
structure GetServerResult where
  result : Except EstimateError BackendServer
  last_used : List (String × Nat)
  docker : DockerState
  trace : List DockerAction
  probeIdx : Nat
deriving DecidableEq

/-- Embeds `get_server`: resolve the model, ensure its container exists, run
admission-and-eviction and start it when it is not running, wait until
healthy, update the last-used time, return the backend.  `now` is the
`SystemTime::now()` of the final update.  The wait-until-healthy loop
polls an external predicate once a second; the embedding records its
completion by marking the container healthy (a container that never
becomes healthy makes the Rust loop diverge, which no claim here is
about).  Container create/start/stop failures (Docker transport
errors) are not modelled. -/
def get_server (fs : FS) (cfg : RouterConfig) (lu : List (String × Nat))
    (d : DockerState) (probes : Nat → Nat) (i : Nat) (now : Nat)
    (model_name : String) : GetServerResult :=
  match cfg.get_model fs model_name with
  | none => ⟨.error (.ModelNotFound model_name), lu, d, [], i⟩
  | some model =>
    let (d1, tr1) :=
      if containerExists d model.container_name then (d, ([] : List DockerAction))
      else (dockerCreate d model.container_name, [.create model.container_name])
    if dockerIsRunning d1 model.container_name then
      let d3 := listUpsert d1 model.container_name .healthy
      let lu' := listUpsert lu model.container_name now
      ⟨.ok ⟨get_hostname model⟩, lu', d3, tr1, i⟩
    else
      let scan := unload_models_to_fit_if_necessary fs cfg lu model d1 probes i
      match scan.result with
      | .error e =>
        ⟨.error e, lu, scan.docker,
          tr1 ++ scan.stopped.map (fun m => .stop m.container_name), scan.probeIdx⟩
      | .ok _ =>
        let d2 := dockerStart scan.docker model.container_name
        let d3 := listUpsert d2 model.container_name .healthy
        let lu' := listUpsert lu model.container_name now
        ⟨.ok ⟨get_hostname model⟩, lu', d3,
          tr1 ++ scan.stopped.map (fun m => .stop m.container_name) ++
            [.start model.container_name], scan.probeIdx⟩

/-- Modelled from the spec: the per-model active-request counters.  The
methods `increment_active_requests` / `decrement_active_requests` that
the controllers call on `BackendServerManager` are not among the
provided source files; per the spec (sections 3 and 4.3) they maintain
`activeRequests[m]`, a non-negative per-model counter keyed by model
name. -/
abbrev ActiveRequests : Type := List (String × Nat)

/-- The counter of one model (0 when absent). -/
def getActive (ar : ActiveRequests) (name : String) : Nat :=
  (ar.lookup name).getD 0

/-- Modelled from the spec: `increment_active_requests` adds one to the
model's counter. -/
def increment_active_requests (ar : ActiveRequests) (name : String) : ActiveRequests :=
  listUpsert ar name (getActive ar name + 1)

/-- Modelled from the spec: `decrement_active_requests` subtracts one
from the model's counter.  (The spec calls decrementing at zero a
programming error; the embedding saturates, which no claim exercises.) -/
def decrement_active_requests (ar : ActiveRequests) (name : String) : ActiveRequests :=
  listUpsert ar name (getActive ar name - 1)

/-- What the non-streaming controller hands back. -/
inductive HttpResult where
  | proxied (hostname : String)
  | errorResponse (status : Nat) (message : String)
deriving DecidableEq

/-- Outcome of the `non_streaming` controller. -/
structure NonStreamingResult where
  active : ActiveRequests
  last_used : List (String × Nat)
  docker : DockerState
  trace : List DockerAction
  response : HttpResult
deriving DecidableEq

/-- Embeds `non_streaming` (src/controllers/chat_completions.rs): increment
the model's active-request counter, acquire the backend, and on error
decrement again and answer 500 with the error message; on success
proxy to the backend (external I/O, summarized by `proxied`) and
decrement afterwards. -/
def non_streaming (fs : FS) (cfg : RouterConfig) (ar : ActiveRequests)
    (lu : List (String × Nat)) (d : DockerState) (probes : Nat → Nat) (i : Nat)
    (now : Nat) (payload_model : String) : NonStreamingResult :=
  let ar1 := increment_active_requests ar payload_model
  let r := get_server fs cfg lu d probes i now payload_model
  match r.result with
  | .error e =>
    ⟨decrement_active_requests ar1 payload_model, r.last_used, r.docker, r.trace,
      .errorResponse 500 e.toMessage⟩
  | .ok b =>
    ⟨decrement_active_requests ar1 payload_model, r.last_used, r.docker, r.trace,
      .proxied b.hostname⟩

/-- The eviction loop only ever fails with `FreeFailed` naming the
requested model. -/
theorem unloadLoop_error (requested : Model) (probes : Nat → Nat) :
    ∀ (ms : List Model) (d : DockerState) (i : Nat) (e : EstimateError),
      (unloadLoop requested probes ms d i).result = .error e →
      e = .FreeFailed requested.model_name := by
  intro ms
  induction ms with
  | nil =>
    intro d i e h
    simp only [unloadLoop] at h
    injection h with h'
    exact h'.symm
  | cons m rest ih =>
    intro d i e h
    rw [unloadLoop] at h
    by_cases hf : model_fits requested probes i
    · rw [if_pos hf] at h
      exact Except.noConfusion h
    · rw [if_neg hf] at h
      exact ih _ _ _ h

/-- What the eviction loop stops is a prefix of its candidate list. -/
theorem unloadLoop_stopped (requested : Model) (probes : Nat → Nat) :
    ∀ (ms : List Model) (d : DockerState) (i : Nat),
      ∃ t, ms = (unloadLoop requested probes ms d i).stopped ++ t := by
  intro ms
  induction ms with
  | nil => exact fun d i => ⟨[], rfl⟩
  | cons m rest ih =>
    intro d i
    rw [unloadLoop]
    by_cases hf : model_fits requested probes i
    · rw [if_pos hf]
      exact ⟨rest, rfl⟩
    · rw [if_neg hf]
      obtain ⟨t, ht⟩ := ih (dockerStop d m.container_name) (i + 1)
      exact ⟨t, by simpa using congrArg (m :: ·) ht⟩

/-- The scan's stop list is a prefix of the sorted candidate models. -/
theorem scan_stopped_sub (fs : FS) (cfg : RouterConfig) (lu : List (String × Nat))
    (requested : Model) (d : DockerState) (probes : Nat → Nat) (i : Nat) :
    ∃ t, ((runningCandidates fs cfg d lu requested).insertionSort
        (fun a b => a.2 ≤ b.2)).map Prod.fst =
      (unload_models_to_fit_if_necessary fs cfg lu requested d probes i).stopped ++ t := by
  rw [unload_models_to_fit_if_necessary]
  by_cases hf : model_fits requested probes i
  · rw [if_pos hf]
    exact ⟨_, rfl⟩
  · rw [if_neg hf]
    exact unloadLoop_stopped requested probes _ d (i + 1)

/-- The scan only ever fails with `FreeFailed` naming the requested
model. -/
theorem scan_error (fs : FS) (cfg : RouterConfig) (lu : List (String × Nat))
    (requested : Model) (d : DockerState) (probes : Nat → Nat) (i : Nat)
    (e : EstimateError)
    (h : (unload_models_to_fit_if_necessary fs cfg lu requested d probes i).result =
      .error e) : e = .FreeFailed requested.model_name := by
  rw [unload_models_to_fit_if_necessary] at h
  by_cases hf : model_fits requested probes i
  · rw [if_pos hf] at h
    exact Except.noConfusion h
  · rw [if_neg hf] at h
    exact unloadLoop_error requested probes _ d (i + 1) e h

/-- Every pair in the candidate list carries its model's last-used
key. -/
theorem runningCandidates_key (fs : FS) (cfg : RouterConfig) (d : DockerState)
    (lu : List (String × Nat)) (requested : Model) (p : Model × Nat)
    (hp : p ∈ runningCandidates fs cfg d lu requested) :
    p.2 = (lu.lookup p.1.container_name).getD 0 := by
  obtain ⟨m, _, rfl⟩ := List.mem_map.mp hp
  rfl

/-- Every candidate's container name differs from the requested
model's. -/
theorem runningCandidates_ne (fs : FS) (cfg : RouterConfig) (d : DockerState)
    (lu : List (String × Nat)) (requested : Model) (p : Model × Nat)
    (hp : p ∈ runningCandidates fs cfg d lu requested) :
    p.1.container_name ≠ requested.container_name := by
  obtain ⟨m, hm, rfl⟩ := List.mem_map.mp hp
  obtain ⟨-, hpred⟩ := List.mem_filter.mp hm
  simp only [Bool.and_eq_true, Bool.not_eq_eq_eq_not, Bool.not_true, beq_eq_false_iff_ne,
    ne_eq] at hpred
  exact hpred.1.1

/-! ### Claims C10 and C6 -/

/-- C10: the admission-and-eviction scan never stops the requested
model's own container — every configured model whose container name
equals the requested model's is excluded from the candidate list, for
every file system, configuration, last-used map, Docker state and
probe sequence, independently of any active-request accounting. -/
theorem c10_never_evicts_requested :
    ∀ (fs : FS) (cfg : RouterConfig) (lu : List (String × Nat)) (requested : Model)
      (d : DockerState) (probes : Nat → Nat) (i : Nat),
      ((unload_models_to_fit_if_necessary fs cfg lu requested d probes i).stopped).all
        (fun m => !(m.container_name == requested.container_name)) = true := by
  intro fs cfg lu requested d probes i
  rw [List.all_eq_true]
  intro m hm
  obtain ⟨t, ht⟩ := scan_stopped_sub fs cfg lu requested d probes i
  have hmem : m ∈ ((runningCandidates fs cfg d lu requested).insertionSort
      (fun a b => a.2 ≤ b.2)).map Prod.fst := by
    rw [ht]
    exact List.mem_append_left t hm
  obtain ⟨p, hp, hpm⟩ := List.mem_map.mp hmem
  have hpc : p ∈ runningCandidates fs cfg d lu requested :=
    (List.perm_insertionSort _ _).mem_iff.mp hp
  have := runningCandidates_ne fs cfg d lu requested p hpc
  rw [hpm] at this
  simpa using this

/-- C6: the scan stops candidates in ascending last-used order (a
never-used candidate counts as epoch zero), and the first victim
minimizes the last-used time over the whole candidate set. -/
theorem c6_lru_order :
    ∀ (fs : FS) (cfg : RouterConfig) (lu : List (String × Nat)) (requested : Model)
      (d : DockerState) (probes : Nat → Nat) (i : Nat),
      List.Chain' (· ≤ ·)
        (((unload_models_to_fit_if_necessary fs cfg lu requested d probes i).stopped).map
          fun m => (lu.lookup m.container_name).getD 0) ∧
      ∀ v, (unload_models_to_fit_if_necessary fs cfg lu requested d probes i).stopped.head? =
          some v →
        ∀ s ∈ runningCandidates fs cfg d lu requested,
          (lu.lookup v.container_name).getD 0 ≤ s.2 := by
  intro fs cfg lu requested d probes i
  haveI htot : IsTotal (Model × Nat) (fun a b => a.2 ≤ b.2) :=
    ⟨fun a b => Nat.le_total a.2 b.2⟩
  haveI htra : IsTrans (Model × Nat) (fun a b => a.2 ≤ b.2) :=
    ⟨fun a b c hab hbc => Nat.le_trans hab hbc⟩
  have hsorted := List.sorted_insertionSort (fun (a b : Model × Nat) => a.2 ≤ b.2)
    (runningCandidates fs cfg d lu requested)
  obtain ⟨t, ht⟩ := scan_stopped_sub fs cfg lu requested d probes i
  have hkey : ∀ p ∈ (runningCandidates fs cfg d lu requested).insertionSort
      (fun a b => a.2 ≤ b.2), p.2 = (lu.lookup p.1.container_name).getD 0 :=
    fun p hp => runningCandidates_key fs cfg d lu requested p
      ((List.perm_insertionSort _ _).mem_iff.mp hp)
  constructor
  · have hpair : List.Pairwise (fun a b : Model × Nat =>
        (lu.lookup a.1.container_name).getD 0 ≤ (lu.lookup b.1.container_name).getD 0)
        ((runningCandidates fs cfg d lu requested).insertionSort fun a b => a.2 ≤ b.2) :=
      hsorted.imp_of_mem fun ha hb hr => by
        rw [← hkey _ ha, ← hkey _ hb]; exact hr
    have hpair2 : List.Pairwise (fun a b : Model =>
        (lu.lookup a.container_name).getD 0 ≤ (lu.lookup b.container_name).getD 0)
        (((runningCandidates fs cfg d lu requested).insertionSort
          fun a b => a.2 ≤ b.2).map Prod.fst) := List.pairwise_map.mpr hpair
    have hsub : (unload_models_to_fit_if_necessary fs cfg lu requested d probes i).stopped.Sublist
        (((runningCandidates fs cfg d lu requested).insertionSort
          fun a b => a.2 ≤ b.2).map Prod.fst) := by
      rw [ht]
      exact List.sublist_append_left _ t
    have hpair3 := List.Pairwise.sublist hsub hpair2
    exact (List.pairwise_map.mpr hpair3).chain'
  · intro v hv s hs
    rcases hsl : (runningCandidates fs cfg d lu requested).insertionSort
        (fun a b => a.2 ≤ b.2) with _ | ⟨p0, stail⟩
    · rw [hsl] at ht
      rcases hstop : (unload_models_to_fit_if_necessary fs cfg lu requested d probes i).stopped with
        _ | ⟨v', r'⟩
      · rw [hstop] at hv; exact Option.noConfusion hv
      · rw [hstop] at ht; simp at ht
    · have hmapeq : p0.1 :: stail.map Prod.fst =
          (unload_models_to_fit_if_necessary fs cfg lu requested d probes i).stopped ++ t := by
        rw [← ht, hsl, List.map_cons]
      rcases hstop : (unload_models_to_fit_if_necessary fs cfg lu requested d probes i).stopped with
        _ | ⟨v', r'⟩
      · rw [hstop] at hv; exact Option.noConfusion hv
      · rw [hstop] at hmapeq hv
        simp only [List.head?_cons, Option.some.injEq] at hv
        rw [List.cons_append] at hmapeq
        injection hmapeq with h1 h2
        have hv0 : p0.1 = v := h1.trans hv
        have hp0mem : p0 ∈ (runningCandidates fs cfg d lu requested).insertionSort
            (fun a b => a.2 ≤ b.2) := by
          rw [hsl]; exact List.mem_cons_self _ _
        have hkey0 : (lu.lookup v.container_name).getD 0 = p0.2 := by
          rw [← hv0]
          exact (hkey p0 hp0mem).symm
        have hsmem : s ∈ (runningCandidates fs cfg d lu requested).insertionSort
            (fun a b => a.2 ≤ b.2) := (List.perm_insertionSort _ _).mem_iff.mpr hs
        rw [hsl] at hsmem
        rw [hkey0]
        rcases List.mem_cons.mp hsmem with rfl | hmem
        · exact Nat.le_refl _
        · have hpw := hsorted
          rw [hsl, List.sorted_cons] at hpw
          exact hpw.1 s hmem

/-- Lookup after an upsert. -/
theorem lookup_listUpsert {α : Type} (l : List (String × α)) (k : String) (v : α)
    (n : String) :
    (listUpsert l k v).lookup n = if n = k then some v else l.lookup n := by
  induction l with
  | nil =>
    by_cases h : n = k
    · simp [listUpsert, List.lookup, h]
    · simp [listUpsert, List.lookup, h, beq_false_of_ne h]
  | cons kv rest ih =>
    obtain ⟨k', v'⟩ := kv
    by_cases hk : k' = k
    · subst hk
      by_cases hn : n = k'
      · subst hn
        simp [listUpsert, List.lookup]
      · simp [listUpsert, List.lookup, hn, beq_false_of_ne hn]
    · by_cases hn : n = k'
      · subst hn
        simp [listUpsert, List.lookup, if_neg hk]
      · simp [listUpsert, List.lookup, if_neg hk, beq_false_of_ne hn, hn, ih]

/-- Incrementing then decrementing a model's counter leaves every
counter unchanged. -/
theorem getActive_dec_inc (ar : ActiveRequests) (name n : String) :
    getActive (decrement_active_requests (increment_active_requests ar name) name) n =
      getActive ar n := by
  unfold decrement_active_requests increment_active_requests getActive
  simp only [lookup_listUpsert]
  by_cases h : n = name
  · simp [h]
  · simp [h]

/-- Is this a container start? -/
def isStartAction : DockerAction → Bool
  | .start _ => true
  | _ => false

/-- A resolved model carries the requested name. -/
theorem get_model_name (fs : FS) (cfg : RouterConfig) (name : String) (model : Model)
    (h : RouterConfig.get_model cfg fs name = some model) : model.model_name = name := by
  rw [RouterConfig.get_model] at h
  rcases hlk : cfg.models.lookup name with _ | mc
  · rw [hlk] at h
    exact Option.noConfusion h
  · rw [hlk] at h
    simp only [Option.map_some'] at h
    injection h with h'
    rw [← h']
    rfl

/-- The consequences of an insufficient-memory acquisition, given the
reduced shape of `get_server`. -/
theorem c2_conclusions (fs : FS) (cfg : RouterConfig) (ar : ActiveRequests)
    (lu : List (String × Nat)) (d : DockerState) (probes : Nat → Nat) (i now : Nat)
    (name : String) (D : DockerState) (tr1 : List DockerAction) (stops : List Model)
    (pI : Nat)
    (hG : get_server fs cfg lu d probes i now name =
      ⟨.error (.FreeFailed name), lu, D,
        tr1 ++ stops.map (fun m => .stop m.container_name), pI⟩)
    (htr1 : tr1.all (fun a => !(isStartAction a)) = true) :
    (get_server fs cfg lu d probes i now name).trace.all
      (fun a => !(isStartAction a)) = true ∧
    (get_server fs cfg lu d probes i now name).last_used = lu ∧
    (non_streaming fs cfg ar lu d probes i now name).response =
      .errorResponse 500 ("Unable to free enough memory for model: " ++ name) ∧
    ∀ n, getActive (non_streaming fs cfg ar lu d probes i now name).active n =
      getActive ar n := by
  refine ⟨?_, ?_, ?_, ?_⟩
  · rw [hG]
    simp only [List.all_append, htr1, Bool.true_and]
    rw [List.all_eq_true]
    intro m hm
    obtain ⟨x, -, rfl⟩ := List.mem_map.mp hm
    rfl
  · rw [hG]
  · rw [non_streaming, hG]
    rfl
  · intro n
    rw [non_streaming, hG]
    exact getActive_dec_inc ar name n

/-- C2: exhausting the eviction candidates fails the acquisition with
`FreeFailed` naming the requested model, performs no container start,
leaves the last-used map untouched, and the non-streaming controller
answers 500 with the error message after restoring every
active-request counter. -/
theorem c2_insufficient_memory :
    ∀ (fs : FS) (cfg : RouterConfig) (ar : ActiveRequests) (lu : List (String × Nat))
      (d : DockerState) (probes : Nat → Nat) (i now : Nat) (name m : String),
      (get_server fs cfg lu d probes i now name).result = .error (.FreeFailed m) →
      m = name ∧
      (get_server fs cfg lu d probes i now name).trace.all
        (fun a => !(isStartAction a)) = true ∧
      (get_server fs cfg lu d probes i now name).last_used = lu ∧
      (non_streaming fs cfg ar lu d probes i now name).response =
        .errorResponse 500 ("Unable to free enough memory for model: " ++ name) ∧
      ∀ n, getActive (non_streaming fs cfg ar lu d probes i now name).active n =
        getActive ar n := by
  intro fs cfg ar lu d probes i now name m h
  rcases hgm : RouterConfig.get_model cfg fs name with _ | model
  · simp only [get_server, hgm] at h
    exact EstimateError.noConfusion (Except.error.inj h)
  · have hname := get_model_name fs cfg name model hgm
    by_cases hex : containerExists d model.container_name
    · by_cases hrun : dockerIsRunning d model.container_name
      · simp only [get_server, hgm] at h
        rw [if_pos hex] at h
        dsimp only at h
        rw [if_pos hrun] at h
        exact Except.noConfusion h
      · rcases hscan : (unload_models_to_fit_if_necessary fs cfg lu model d probes i).result
          with e | u
        · have he := scan_error fs cfg lu model d probes i e hscan
          rw [hname] at he
          rw [he] at hscan
          have hG : get_server fs cfg lu d probes i now name =
              ⟨.error (.FreeFailed name), lu,
                (unload_models_to_fit_if_necessary fs cfg lu model d probes i).docker,
                [] ++ (unload_models_to_fit_if_necessary fs cfg lu model d
                  probes i).stopped.map (fun m => .stop m.container_name),
                (unload_models_to_fit_if_necessary fs cfg lu model d probes i).probeIdx⟩ := by
            simp only [get_server, hgm]
            rw [if_pos hex]
            dsimp only
            rw [if_neg hrun, hscan]
          have hm : m = name := by
            rw [hG] at h
            dsimp only at h
            exact (EstimateError.FreeFailed.inj (Except.error.inj h)).symm
          exact ⟨hm, c2_conclusions fs cfg ar lu d probes i now name _ [] _ _ hG rfl⟩
        · simp only [get_server, hgm] at h
          rw [if_pos hex] at h
          dsimp only at h
          rw [if_neg hrun, hscan] at h
          exact Except.noConfusion h
    · by_cases hrun : dockerIsRunning (dockerCreate d model.container_name)
          model.container_name
      · simp only [get_server, hgm] at h
        rw [if_neg hex] at h
        dsimp only at h
        rw [if_pos hrun] at h
        exact Except.noConfusion h
      · rcases hscan : (unload_models_to_fit_if_necessary fs cfg lu model
            (dockerCreate d model.container_name) probes i).result with e | u
        · have he := scan_error fs cfg lu model (dockerCreate d model.container_name)
            probes i e hscan
          rw [hname] at he
          rw [he] at hscan
          have hG : get_server fs cfg lu d probes i now name =
              ⟨.error (.FreeFailed name), lu,
                (unload_models_to_fit_if_necessary fs cfg lu model
                  (dockerCreate d model.container_name) probes i).docker,
                [.create model.container_name] ++
                  (unload_models_to_fit_if_necessary fs cfg lu model
                    (dockerCreate d model.container_name) probes i).stopped.map
                    (fun m => .stop m.container_name),
                (unload_models_to_fit_if_necessary fs cfg lu model
                  (dockerCreate d model.container_name) probes i).probeIdx⟩ := by
            simp only [get_server, hgm]
            rw [if_neg hex]
            dsimp only
            rw [if_neg hrun, hscan]
          have hm : m = name := by
            rw [hG] at h
            dsimp only at h
            exact (EstimateError.FreeFailed.inj (Except.error.inj h)).symm
          exact ⟨hm, c2_conclusions fs cfg ar lu d probes i now name _
            [.create model.container_name] _ _ hG rfl⟩
        · simp only [get_server, hgm] at h
          rw [if_neg hex] at h
          dsimp only at h
          rw [if_neg hrun, hscan] at h
          exact Except.noConfusion h

/-- C2 witness scenario: one configured model whose weight file is
unreadable (estimate `u64::MAX`), no containers, 48000 MB free. -/
def cfgM : RouterConfig := ⟨⟨"img", "/vol", "net"⟩, [("m", ⟨"missing.gguf", ⟨1024⟩, none⟩)]⟩

/-- An empty file system: every open fails. -/
def fsNone : FS := fun _ => none

/-- Every VRAM probe reports 48000 MB free. -/
def probes48 : Nat → Nat := fun _ => 48000

set_option maxRecDepth 100000 in
/-- C2 witness: the insufficient-memory consequences at the concrete
scenario. -/
theorem c2_insufficient_memory_witness :
    (get_server fsNone cfgM [] [] probes48 0 7 "m").trace.all
      (fun a => !(isStartAction a)) = true ∧
    (non_streaming fsNone cfgM [("x", 3)] [] [] probes48 0 7 "m").response =
      .errorResponse 500 ("Unable to free enough memory for model: " ++ "m") := by
  have h := c2_insufficient_memory fsNone cfgM [("x", 3)] [] [] probes48 0 7 "m" "m"
    (by decide)
  exact ⟨h.2.1, h.2.2.2.1⟩

/-! ### Claims C1 and C6's witness scenario -/

/-- A model config whose weight file does not exist (so its estimate is
`u64::MAX`). -/
def mcMissing : ModelConfig := ⟨"missing.gguf", ⟨1024⟩, none⟩

/-- Three configured models A, B, C. -/
def cfgABC : RouterConfig :=
  ⟨⟨"img", "/vol", "net"⟩, [("A", mcMissing), ("B", mcMissing), ("C", mcMissing)]⟩

/-- A was last used at 10, B at 20. -/
def luAB : List (String × Nat) := [("llm_A", 10), ("llm_B", 20)]

/-- A's and B's containers exist and are healthy. -/
def dAB : DockerState := [("llm_A", Health.healthy), ("llm_B", Health.healthy)]

/-- A streaming request for B is in flight: B's counter is 1 (the
spec-modelled controller accounting). -/
def arB : ActiveRequests := [("B", 1)]

/-- The requested model C. -/
def modelC : Model := get_model_from_config fsNone cfgABC "C" mcMissing

set_option maxRecDepth 100000 in
/-- C1: the eviction scan never consults the active-request counters —
they are maintained by the controllers but read by nothing — so with a
streaming request for B in flight (`activeRequests[B] = 1`, modelled
from the spec) the scan run for C still stops B's container: the stop
order is A then B, and the scan then fails with `FreeFailed` for C.
The claim (spec P1) says B is never chosen as a victim. -/
theorem c1_active_model_stopped :
    getActive arB "B" = 1 ∧
    ((unload_models_to_fit_if_necessary fsNone cfgABC luAB modelC dAB probes48 0).stopped).map
      (·.model_name) = ["A", "B"] ∧
    (unload_models_to_fit_if_necessary fsNone cfgABC luAB modelC dAB probes48 0).result =
      .error (.FreeFailed "C") := by
  refine ⟨rfl, ?_, ?_⟩ <;> decide

set_option maxRecDepth 100000 in
/-- C6 witness: the LRU-order theorem applied at the concrete A/B/C
scenario; A (last used 10) is the first victim and its key bounds B's
key 20. -/
theorem c6_lru_order_witness :
    List.Chain' (· ≤ ·)
      (((unload_models_to_fit_if_necessary fsNone cfgABC luAB modelC dAB probes48 0).stopped).map
        fun m => (luAB.lookup m.container_name).getD 0) ∧
    (10 : Nat) ≤ 20 := by
  obtain ⟨h1, h2⟩ := c6_lru_order fsNone cfgABC luAB modelC dAB probes48 0
  refine ⟨h1, ?_⟩
  exact h2 (get_model_from_config fsNone cfgABC "A" mcMissing) (by decide)
    (get_model_from_config fsNone cfgABC "B" mcMissing, 20) (by decide)

/-! ## VRAM probes (src/repositories/vram_repository.rs and
`get_available_memory` of src/services/backend_server_manager.rs)

Both probes shell out to `rocm-smi --showmeminfo vram --json`.  One
invocation is embedded as a `RocmOutcome`: spawning can fail (which the
code turns into a panic through `expect`, embedded as `none`), or the
tool runs with an exit status and an stdout whose serde_json parse
outcome (a library concern) is part of the input. -/

/-- A serde_json value, restricted to the shapes the probes inspect:
objects and strings; everything else only ever fails `as_str`/
`as_object`, which `other` stands for. -/
inductive Json where
  | obj (fields : List (String × Json))
  | str (s : String)
  | other

/-- Embeds `Value::get` on an object key. -/
def jsonGet (v : Json) (k : String) : Option Json :=
  match v with
  | .obj fields => fields.lookup k
  | _ => none

/-- One invocation of the external tool. -/
inductive RocmOutcome where
  | execFailed
  | ran (success : Bool) (stdout : Option Json)

/-- The `Memory` struct of vram_repository.rs. -/
structure Memory where
  total_mb : Nat
  used_mb : Nat
deriving DecidableEq

/-- The two string fields both probes extract: `unwrap_or("0")` on a
missing or non-string field, `u64::from_str(..).unwrap_or(0)` on the
value. -/
def rocmRawFields (card : Json) : Nat × Nat :=
  let total_str := match jsonGet card "VRAM Total Memory (B)" with
    | some (.str s) => s
    | _ => "0"
  let used_str := match jsonGet card "VRAM Total Used Memory (B)" with
    | some (.str s) => s
    | _ => "0"
  ((parseU64 total_str.data).getD 0, (parseU64 used_str.data).getD 0)

/-- Embeds `VramRepository::get_memory`: a spawn failure panics (`expect`,
embedded as `none`); a non-zero exit, an unparseable stdout or an
unexpected structure yield `Memory::default()`; otherwise the two
byte counts are divided by 1e6 rounding up (`div_ceil`). -/
def vram_get_memory (o : RocmOutcome) : Option Memory :=
  match o with
  | .execFailed => none
  | .ran success stdout =>
    if !success then some ⟨0, 0⟩
    else
      match stdout with
      | none => some ⟨0, 0⟩
      | some v =>
        match v with
        | .obj fields =>
          match fields.head? with
          | none => some ⟨0, 0⟩
          | some (_, card) =>
            let (total, used) := rocmRawFields card
            some ⟨u64divCeil total 1000000, u64divCeil used 1000000⟩
        | _ => some ⟨0, 0⟩

/-- Embeds `VramRepository::get_total_memory`. -/
def vram_get_total_memory (o : RocmOutcome) : Option Nat :=
  (vram_get_memory o).map (·.total_mb)

/-- Embeds `VramRepository::get_used_memory`. -/
def vram_get_used_memory (o : RocmOutcome) : Option Nat :=
  (vram_get_memory o).map (·.used_mb)

/-- Embeds `VramRepository::get_free_memory`: TWO separate tool invocations,
then an unchecked `u64` subtraction `total_mb - used_mb`, which wraps
in a release build (a debug build panics) when used exceeds total. -/
def vram_get_free_memory (o1 o2 : RocmOutcome) : Option Nat := do
  let t ← vram_get_total_memory o1
  let u ← vram_get_used_memory o2
  some (u64subWrap t u)

/-- Embeds `BackendServerManager::get_available_memory`: the same extraction,
but the free figure is `total.saturating_sub(used) / 1_000_000` on the
raw byte counts, and every failure past the spawn yields 0. -/
def get_available_memory (o : RocmOutcome) : Option Nat :=
  match o with
  | .execFailed => none
  | .ran success stdout =>
    if !success then some 0
    else
      match stdout with
      | none => some 0
      | some v =>
        match v with
        | .obj fields =>
          match fields.head? with
          | none => some 0
          | some (_, card) =>
            let (total, used) := rocmRawFields card
            some (u64subSat total used / 1000000)
        | _ => some 0

/-- A run whose first card reports the given two byte-count strings. -/
def mkProbe (st su : String) : RocmOutcome :=
  .ran true (some (.obj [("card0",
    .obj [("VRAM Total Memory (B)", .str st),
          ("VRAM Total Used Memory (B)", .str su)])]))

/-- A probe where the tool reports 1 MB total (rounded up) and 3 MB
used. -/
def roUnderflow : RocmOutcome := mkProbe "1000000" "2000001"

/-- C3 counterexample: a failure to execute the tool makes both probes
abort (panic through `expect`) instead of returning zeros, and when the
tool reports more used than total memory, `get_free_memory` wraps
around to 2^64 - 2 instead of the claimed max(0, Total - Used) = 0. -/
theorem c3_counterexample :
    vram_get_memory .execFailed = none ∧
    get_available_memory .execFailed = none ∧
    vram_get_free_memory roUnderflow roUnderflow = some (2 ^ 64 - 2) ∧
    ((2 ^ 64 - 2 : Nat) : Int) ≠ max 0 ((1 : Int) - 3) := by
  refine ⟨rfl, rfl, ?_, by decide⟩
  rfl

/-- C3 as amended. -/
theorem c3_vram_probe :
    (∀ o : RocmOutcome, o ≠ .execFailed →
      (vram_get_memory o).isSome ∧ (get_available_memory o).isSome) ∧
    (∀ (t u : Nat) (st su : String),
      parseU64 st.data = some t → parseU64 su.data = some u →
      get_available_memory (mkProbe st su) = some (u64subSat t u / 1000000)) ∧
    (∀ a b : Nat, ((u64subSat a b : Nat) : Int) = max 0 ((a : Int) - (b : Int))) ∧
    (∀ stdout : Option Json, vram_get_memory (.ran false stdout) = some ⟨0, 0⟩ ∧
      get_available_memory (.ran false stdout) = some 0) ∧
    vram_get_memory (.ran true none) = some ⟨0, 0⟩ ∧
    get_available_memory (.ran true none) = some 0 := by
  refine ⟨?_, ?_, ?_, fun stdout => ⟨rfl, rfl⟩, rfl, rfl⟩
  · intro o ho
    match o with
    | .execFailed => exact absurd rfl ho
    | .ran success stdout =>
      cases success
      · exact ⟨rfl, rfl⟩
      · match stdout with
        | none => exact ⟨rfl, rfl⟩
        | some v =>
          match v with
          | .str s => exact ⟨rfl, rfl⟩
          | .other => exact ⟨rfl, rfl⟩
          | .obj fields =>
            match fields with
            | [] => exact ⟨rfl, rfl⟩
            | (k, card) :: rest => exact ⟨rfl, rfl⟩
  · intro t u st su hpt hpu
    show some (u64subSat ((parseU64 st.data).getD 0) ((parseU64 su.data).getD 0) /
      1000000) = some (u64subSat t u / 1000000)
    rw [hpt, hpu]
    rfl
  · intro a b
    simp only [u64subSat]
    omega

/-- C3 witness: the amended probe behaviour at concrete tool outputs
(5 MB total, 2 MB used: 3 MB free). -/
theorem c3_vram_probe_witness :
    (vram_get_memory roUnderflow).isSome = true ∧
    get_available_memory (mkProbe "5000000" "2000000") =
      some (u64subSat 5000000 2000000 / 1000000) := by
  refine ⟨(c3_vram_probe.1 roUnderflow (by simp [roUnderflow, mkProbe])).1, ?_⟩
  exact c3_vram_probe.2.1 5000000 2000000 "5000000" "2000000" (by decide) (by decide)
